import Mathlib

/-!
# Inventory / movement core of `JS/script.js`

A shallow embedding of the data-access class `EPIDatabase`, of the two form
handlers that mutate stock (`registerForm`, `movementForm`), of the
export / import functions and of the statistics and low-stock report,
followed by the properties proved about them.

Modelling conventions

* A JavaScript number is met by the program only as the result of `parseInt`
  (a double whose value is an integer, `Infinity`, `-Infinity` or `NaN`) and
  of `+` / `-` on such results; `JSNumber` is that fragment.  `int n` stands
  for the double whose value is the integer `n`; sums and differences are
  rounded to the nearest double, ties to even, and overflow to an infinity,
  as IEEE 754 prescribes (`ofInt`).  Below `2^53` in absolute value nothing
  is rounded.  The double `-0` is identified with `0`: the program never
  divides and compares, adds, prints and serialises the two alike.
* `Date.now()` and `new Date()` read the clock; every read is an input of the
  operation that makes it (`Tick`).  An instant is a number of milliseconds
  since the epoch; the ISO-8601 string stored in `createdAt` / `timestamp`
  is kept as the instant it denotes, and rendered by `toISOString` when the
  record is serialised.
* `JSON.stringify`, `JSON.parse`, `localStorage` and `Array.prototype.sort`
  belong to the platform.  A text is modelled by what the program can observe
  of it (`Text`): whether it is empty, and what `JSON.parse` makes of it.
  `Array.prototype.sort` is a stable sort (ECMAScript 2019), modelled by
  insertion sort.
* The in-memory collections hold records of the shape the handlers write
  (`EPI`, `Movement`).  Data of any other shape can only come from the store
  or from an imported file, and is met there as a `JSValue`.
* DOM reads are the handler's inputs; DOM writes other than the notification
  shown to the user (`showToast`, `alert`) are left out.
-/

namespace Luar

/-! ## JavaScript numbers -/

/-- Numbers as produced by `parseInt` and combined with `+` and `-`: the
doubles whose value is an integer, the two infinities and `NaN`. -/
inductive JSNumber where
  | int (n : Int)
  | posInf
  | negInf
  | nan
  deriving DecidableEq, Repr

namespace JSNumber

/-- How many low bits a double drops from the integer `n`: the number of
halvings that bring `n` below `2^53`, counted up to `fuel`. -/
def excessBits : Nat → Nat → Nat
  | 0, _ => 0
  | fuel + 1, n => if n < 9007199254740992 then 0 else excessBits fuel (n / 2) + 1

/-- The double nearest to the integer `n` (IEEE 754 round to nearest, ties
to even): `n` itself below `2^53` in absolute value, otherwise `n` rounded to
53 significant bits, and an infinity when that reaches `2^1024`. -/
def ofInt (n : Int) : JSNumber :=
  if n.natAbs < 9007199254740992 then int n
  else
    let k := excessBits 1024 n.natAbs
    let q := n.natAbs / 2 ^ k
    let r := n.natAbs % 2 ^ k
    let up := decide (2 ^ k < 2 * r) || (decide (2 * r = 2 ^ k) && decide (q % 2 = 1))
    let q2 := if up then q + 1 else q
    if 971 < k ∨ (k = 971 ∧ q2 = 9007199254740992) then
      (if n < 0 then negInf else posInf)
    else if n < 0 then int (-((q2 * 2 ^ k : Nat) : Int))
    else int ((q2 * 2 ^ k : Nat) : Int)

/-- JavaScript `a + b` on numbers. -/
def add : JSNumber → JSNumber → JSNumber
  | nan, _ => nan
  | _, nan => nan
  | posInf, negInf => nan
  | negInf, posInf => nan
  | posInf, _ => posInf
  | _, posInf => posInf
  | negInf, _ => negInf
  | _, negInf => negInf
  | int a, int b => ofInt (a + b)

/-- JavaScript `a - b` on numbers. -/
def sub : JSNumber → JSNumber → JSNumber
  | nan, _ => nan
  | _, nan => nan
  | posInf, posInf => nan
  | negInf, negInf => nan
  | posInf, _ => posInf
  | negInf, _ => negInf
  | int _, posInf => negInf
  | int _, negInf => posInf
  | int a, int b => ofInt (a - b)

/-- JavaScript `a > b` on numbers: false as soon as one side is `NaN`. -/
def gt : JSNumber → JSNumber → Bool
  | nan, _ => false
  | _, nan => false
  | int a, int b => decide (a > b)
  | posInf, posInf => false
  | posInf, _ => true
  | negInf, _ => false
  | int _, posInf => false
  | int _, negInf => true

/-- JavaScript `a <= b` on numbers: false as soon as one side is `NaN`. -/
def le : JSNumber → JSNumber → Bool
  | nan, _ => false
  | _, nan => false
  | int a, int b => decide (a ≤ b)
  | negInf, _ => true
  | posInf, posInf => true
  | posInf, _ => false
  | int _, posInf => true
  | int _, negInf => false

/-- The search of `Number::toString` for the shortest digits of the double
`x`: a pair `(s, n)` where `s` has `k` digits, `k` as small as possible, and
`s * 10^(n - k)` is a number whose nearest double is `x`; of two candidates
the one nearer to `x`, of two equally near the even one.  Tried for `k` from
the given one on, `fuel` times; after that the digits of `x` itself. -/
def shortestDigits (x : Nat) : Nat → Nat → Nat × Nat
  | 0, _ => (x, (toString x).length)
  | fuel + 1, k =>
    let n0 := (toString x).length
    let p := 10 ^ (n0 - k)
    let lo := x / p
    let hi := lo + 1
    let okLo := decide (ofInt ((lo * p : Nat) : Int) = int x)
    let okHi := decide (ofInt ((hi * p : Nat) : Int) = int x)
    let pickHi : Bool :=
      okHi && (!okLo || decide (hi * p - x < x - lo * p)
        || (decide (hi * p - x = x - lo * p) && decide (hi % 2 = 0)))
    if okLo || okHi then
      if pickHi then (if hi = 10 ^ k then (10 ^ (k - 1), n0 + 1) else (hi, n0))
      else (lo, n0)
    else shortestDigits x fuel (k + 1)

/-- Model of `Number::toString` on a double whose value is the natural number
`x`: every digit below `2^53`; from there on the shortest digits that read
back as `x`, followed by zeros up to 21 digits and in exponent form beyond. -/
def natToStr (x : Nat) : String :=
  if x < 9007199254740992 then toString x
  else
    let sn := shortestDigits x 17 1
    let digits := toString sn.1
    let k := digits.length
    if sn.2 ≤ 21 then digits ++ String.mk (List.replicate (sn.2 - k) '0')
    else
      let mantissa :=
        if k = 1 then digits
        else String.mk (digits.toList.take 1) ++ "." ++ String.mk (digits.toList.drop 1)
      mantissa ++ "e+" ++ toString (sn.2 - 1)

/-- String conversion of a number inside a template literal. -/
def toStr : JSNumber → String
  | int n => (if n < 0 then "-" else "") ++ natToStr n.natAbs
  | posInf => "Infinity"
  | negInf => "-Infinity"
  | nan => "NaN"

/-- The number is not negative: an integer from 0 on, or `Infinity`, which is
what the sum of two integers that are large enough gives. -/
def NonNeg : JSNumber → Prop
  | int n => 0 ≤ n
  | posInf => True
  | negInf => False
  | nan => False

instance : DecidablePred NonNeg := fun q =>
  match q with
  | int n => inferInstanceAs (Decidable (0 ≤ n))
  | posInf => inferInstanceAs (Decidable True)
  | negInf => inferInstanceAs (Decidable False)
  | nan => inferInstanceAs (Decidable False)

/-- The number is finite: neither `NaN` nor an infinity. -/
def Finite : JSNumber → Prop
  | int _ => True
  | _ => False

instance : DecidablePred Finite := fun q =>
  match q with
  | int _ => isTrue trivial
  | posInf => isFalse (fun h => h)
  | negInf => isFalse (fun h => h)
  | nan => isFalse (fun h => h)

end JSNumber

/-! ## JavaScript values, JSON and the store -/

/-- Values that cross the JSON boundary. -/
inductive JSValue where
  | undefined
  | null
  | bool (b : Bool)
  | num (n : Int)
  | nan
  | infinity (negative : Bool)
  | str (s : String)
  | arr (xs : List JSValue)
  | obj (fields : List (String × JSValue))

namespace JSValue

mutual
/-- Decision procedure for equality of values. -/
def decEq : (a b : JSValue) → Decidable (a = b)
  | .undefined, .undefined => isTrue rfl
  | .null, .null => isTrue rfl
  | .nan, .nan => isTrue rfl
  | .bool a, .bool b =>
    if h : a = b then isTrue (by rw [h]) else isFalse (by intro e; cases e; exact h rfl)
  | .num a, .num b =>
    if h : a = b then isTrue (by rw [h]) else isFalse (by intro e; cases e; exact h rfl)
  | .infinity a, .infinity b =>
    if h : a = b then isTrue (by rw [h]) else isFalse (by intro e; cases e; exact h rfl)
  | .str a, .str b =>
    if h : a = b then isTrue (by rw [h]) else isFalse (by intro e; cases e; exact h rfl)
  | .arr a, .arr b =>
    match decEqList a b with
    | isTrue h => isTrue (by rw [h])
    | isFalse h => isFalse (by intro e; cases e; exact h rfl)
  | .obj a, .obj b =>
    match decEqFields a b with
    | isTrue h => isTrue (by rw [h])
    | isFalse h => isFalse (by intro e; cases e; exact h rfl)
  | .undefined, .null | .undefined, .bool _ | .undefined, .num _ | .undefined, .nan
  | .undefined, .str _ | .undefined, .arr _ | .undefined, .obj _
  | .null, .undefined | .null, .bool _ | .null, .num _ | .null, .nan
  | .null, .str _ | .null, .arr _ | .null, .obj _
  | .bool _, .undefined | .bool _, .null | .bool _, .num _ | .bool _, .nan
  | .bool _, .str _ | .bool _, .arr _ | .bool _, .obj _
  | .num _, .undefined | .num _, .null | .num _, .bool _ | .num _, .nan
  | .num _, .str _ | .num _, .arr _ | .num _, .obj _
  | .nan, .undefined | .nan, .null | .nan, .bool _ | .nan, .num _
  | .nan, .str _ | .nan, .arr _ | .nan, .obj _
  | .str _, .undefined | .str _, .null | .str _, .bool _ | .str _, .num _
  | .str _, .nan | .str _, .arr _ | .str _, .obj _
  | .arr _, .undefined | .arr _, .null | .arr _, .bool _ | .arr _, .num _
  | .arr _, .nan | .arr _, .str _ | .arr _, .obj _
  | .obj _, .undefined | .obj _, .null | .obj _, .bool _ | .obj _, .num _
  | .obj _, .nan | .obj _, .str _ | .obj _, .arr _
  | .infinity _, .undefined | .infinity _, .null | .infinity _, .bool _ | .infinity _, .num _
  | .infinity _, .nan | .infinity _, .str _ | .infinity _, .arr _ | .infinity _, .obj _
  | .undefined, .infinity _ | .null, .infinity _ | .bool _, .infinity _ | .num _, .infinity _
  | .nan, .infinity _ | .str _, .infinity _ | .arr _, .infinity _ | .obj _, .infinity _ =>
    isFalse (by intro e; cases e)
/-- Decision procedure for equality of arrays of values. -/
def decEqList : (a b : List JSValue) → Decidable (a = b)
  | [], [] => isTrue rfl
  | [], _ :: _ => isFalse (by intro e; cases e)
  | _ :: _, [] => isFalse (by intro e; cases e)
  | x :: xs, y :: ys =>
    match decEq x y, decEqList xs ys with
    | isTrue h, isTrue h2 => isTrue (by rw [h, h2])
    | isFalse h, _ => isFalse (by intro e; cases e; exact h rfl)
    | _, isFalse h => isFalse (by intro e; cases e; exact h rfl)
/-- Decision procedure for equality of property lists. -/
def decEqFields : (a b : List (String × JSValue)) → Decidable (a = b)
  | [], [] => isTrue rfl
  | [], _ :: _ => isFalse (by intro e; cases e)
  | _ :: _, [] => isFalse (by intro e; cases e)
  | (k, x) :: xs, (l, y) :: ys =>
    if hk : k = l then
      match decEq x y, decEqFields xs ys with
      | isTrue h, isTrue h2 => isTrue (by rw [hk, h, h2])
      | isFalse h, _ => isFalse (by intro e; cases e; exact h rfl)
      | _, isFalse h => isFalse (by intro e; cases e; exact h rfl)
    else isFalse (by intro e; cases e; exact hk rfl)
end

instance : DecidableEq JSValue := decEq

/-- JavaScript truthiness (`if (v)`, `!v`, `v ? a : b`). -/
def truthy : JSValue → Bool
  | .undefined => false
  | .null => false
  | .bool b => b
  | .num n => decide (n ≠ 0)
  | .nan => false
  | .infinity _ => true
  | .str s => decide (s ≠ "")
  | .arr _ => true
  | .obj _ => true

mutual
/-- The value `JSON.parse(JSON.stringify(v))`: `NaN` and the infinities become
`null`, an `undefined` array element becomes `null`, an `undefined` property
is dropped. -/
def toJSON : JSValue → JSValue
  | .undefined => .null
  | .nan => .null
  | .infinity _ => .null
  | .arr xs => .arr (toJSONList xs)
  | .obj fs => .obj (toJSONFields fs)
  | .null => .null
  | .bool b => .bool b
  | .num n => .num n
  | .str s => .str s
/-- The image of `toJSON` on the elements of an array. -/
def toJSONList : List JSValue → List JSValue
  | [] => []
  | v :: vs => toJSON v :: toJSONList vs
/-- The image of `toJSON` on the properties of an object. -/
def toJSONFields : List (String × JSValue) → List (String × JSValue)
  | [] => []
  | (_, .undefined) :: fs => toJSONFields fs
  | (k, v) :: fs => (k, toJSON v) :: toJSONFields fs
end

mutual
/-- The value survives `JSON.stringify` unchanged: no `NaN`, no infinity and
no `undefined` anywhere inside. -/
def isJSON : JSValue → Bool
  | .undefined => false
  | .nan => false
  | .infinity _ => false
  | .arr xs => isJSONList xs
  | .obj fs => isJSONFields fs
  | .null => true
  | .bool _ => true
  | .num _ => true
  | .str _ => true
/-- Every element of the array satisfies `isJSON`. -/
def isJSONList : List JSValue → Bool
  | [] => true
  | v :: vs => isJSON v && isJSONList vs
/-- Every property value of the object satisfies `isJSON`. -/
def isJSONFields : List (String × JSValue) → Bool
  | [] => true
  | (_, v) :: fs => isJSON v && isJSONFields fs
end

end JSValue

/-- Exceptions the modelled code can raise. -/
inductive JSError where
  | syntaxError
  | typeError
  deriving DecidableEq, Repr

instance {ε α : Type} [DecidableEq ε] [DecidableEq α] : DecidableEq (Except ε α) :=
  fun a b =>
    match a, b with
    | .error x, .error y =>
      if h : x = y then isTrue (by rw [h]) else isFalse (by intro e; cases e; exact h rfl)
    | .ok x, .ok y =>
      if h : x = y then isTrue (by rw [h]) else isFalse (by intro e; cases e; exact h rfl)
    | .error _, .ok _ => isFalse (by intro e; cases e)
    | .ok _, .error _ => isFalse (by intro e; cases e)

/-- Property read `v.key` for the keys the program reads on parsed data
(`epis`, `movements`): a `TypeError` on `null` / `undefined`, the property of
an object (its keys are distinct), `undefined` on every other value. -/
def JSValue.getProp (v : JSValue) (key : String) : Except JSError JSValue :=
  match v with
  | .undefined => .error .typeError
  | .null => .error .typeError
  | .obj fs => .ok ((fs.lookup key).getD .undefined)
  | _ => .ok .undefined

/-- A text (store value, file content) as far as the program observes it. -/
inductive Text where
  /-- The empty string. -/
  | empty
  /-- The JSON text of a value, as written by `JSON.stringify`. -/
  | json (v : JSValue)
  /-- A non-empty text that `JSON.parse` rejects. -/
  | malformed
  deriving DecidableEq

namespace JSON

/-- Model of `JSON.parse`. -/
def parse : Text → Except JSError JSValue
  | .empty => .error .syntaxError
  | .json v => .ok v.toJSON
  | .malformed => .error .syntaxError

/-- Model of `JSON.stringify` followed by the string coercion of the place the
result is written to (`undefined` is written as the text `undefined`). -/
def stringify : JSValue → Text
  | .undefined => .malformed
  | v => .json v.toJSON

end JSON

/-- The `localStorage` object: string keys, text values. -/
abbrev Storage := List (String × Text)

namespace Storage

/-- Model of `localStorage.getItem(key)`; `none` is `null`. -/
def getItem (s : Storage) (key : String) : Option Text :=
  s.lookup key

/-- Model of `localStorage.setItem(key, value)`. -/
def setItem : Storage → String → Text → Storage
  | [], key, value => [(key, value)]
  | (k, v) :: s, key, value =>
    if k = key then (k, value) :: s else (k, v) :: setItem s key value

end Storage

/-- Truthiness of what `localStorage.getItem` returns: `null` and the empty
string are falsy. -/
def dataTruthy : Option Text → Bool
  | none => false
  | some .empty => false
  | some _ => true

/-! ## Clock -/

/-- The clock reads of one `addEPI` / `addMovement` call, in milliseconds
since the epoch: `Date.now()` for the id, `new Date()` for the timestamp. -/
structure Tick where
  now : Nat
  date : Nat
  deriving DecidableEq, Repr

/-- Decimal rendering of `n`, left-padded with zeros to `width` digits. -/
def padZero (width n : Nat) : String :=
  let s := toString n
  String.mk (List.replicate (width - s.length) '0') ++ s

/-- Model of `Date.prototype.toISOString` for an instant at or after the epoch. -/
def toISOString (ms : Nat) : String :=
  let days := ms / 86400000
  let rest := ms % 86400000
  let z := days + 719468
  let era := z / 146097
  let doe := z % 146097
  let yoe := (doe - doe / 1460 + doe / 36524 - doe / 146096) / 365
  let doy := doe - (365 * yoe + yoe / 4 - yoe / 100)
  let mp := (5 * doy + 2) / 153
  let d := doy - (153 * mp + 2) / 5 + 1
  let m := if mp < 10 then mp + 3 else mp - 9
  let y := if m ≤ 2 then yoe + era * 400 + 1 else yoe + era * 400
  let year := if y ≤ 9999 then padZero 4 y else "+" ++ padZero 6 y
  year ++ "-" ++ padZero 2 m ++ "-" ++ padZero 2 d ++ "T"
    ++ padZero 2 (rest / 3600000) ++ ":" ++ padZero 2 (rest / 60000 % 60) ++ ":"
    ++ padZero 2 (rest / 1000 % 60) ++ "." ++ padZero 3 (rest % 1000) ++ "Z"

/-! ## Records -/

/-- The object literal `epi` built by the register handler, before `addEPI`
gives it an id. -/
structure EPIFields where
  name : String
  category : String
  code : String
  quantity : JSNumber
  minStock : JSNumber
  location : String
  validade : String
  description : String
  deriving DecidableEq, Repr

/-- A stored item. -/
structure EPI extends EPIFields where
  id : String
  createdAt : Nat
  deriving DecidableEq, Repr

/-- The `updates` argument of `updateEPI`: the properties present in the
object literal. -/
structure EPIUpdates where
  name : Option String := none
  category : Option String := none
  code : Option String := none
  quantity : Option JSNumber := none
  minStock : Option JSNumber := none
  location : Option String := none
  validade : Option String := none
  description : Option String := none
  deriving DecidableEq, Repr

/-- The object literal passed to `addMovement`. -/
structure MovementFields where
  epiId : String
  epiName : String
  type : String
  quantity : JSNumber
  responsible : String
  reason : String
  stockAfter : JSNumber
  deriving DecidableEq, Repr

/-- A stored movement. -/
structure Movement extends MovementFields where
  id : String
  timestamp : Nat
  deriving DecidableEq, Repr

/-- A number as a JavaScript value. -/
def JSNumber.toJS : JSNumber → JSValue
  | .int n => .num n
  | .posInf => .infinity false
  | .negInf => .infinity true
  | .nan => .nan

/-- The item as the JavaScript object held in `db.epis` (keys in creation
order). -/
def EPI.toJS (e : EPI) : JSValue :=
  .obj [("name", .str e.name), ("category", .str e.category), ("code", .str e.code),
        ("quantity", e.quantity.toJS), ("minStock", e.minStock.toJS),
        ("location", .str e.location), ("validade", .str e.validade),
        ("description", .str e.description), ("id", .str e.id),
        ("createdAt", .str (toISOString e.createdAt))]

/-- The movement as the JavaScript object held in `db.movements`. -/
def Movement.toJS (m : Movement) : JSValue :=
  .obj [("epiId", .str m.epiId), ("epiName", .str m.epiName), ("type", .str m.type),
        ("quantity", m.quantity.toJS), ("responsible", .str m.responsible),
        ("reason", .str m.reason), ("stockAfter", m.stockAfter.toJS),
        ("id", .str m.id), ("timestamp", .str (toISOString m.timestamp))]

/-- The object spread `{ ...e, ...updates }`. -/
def EPI.merge (e : EPI) (u : EPIUpdates) : EPI :=
  { e with
    name := u.name.getD e.name
    category := u.category.getD e.category
    code := u.code.getD e.code
    quantity := u.quantity.getD e.quantity
    minStock := u.minStock.getD e.minStock
    location := u.location.getD e.location
    validade := u.validade.getD e.validade
    description := u.description.getD e.description }

/-! ## `EPIDatabase` -/

/-- The two in-memory collections of the `db` object. -/
structure EPIDatabase where
  epis : List EPI
  movements : List Movement
  deriving DecidableEq

/-- The mutable state the core touches: the `db` object and `localStorage`. -/
structure World where
  db : EPIDatabase
  localStorage : Storage
  deriving DecidableEq

/-- What the user is shown. -/
inductive Notice where
  | toast (message : String) (type : String)
  | alert (message : String)
  deriving DecidableEq, Repr

namespace EPIDatabase

/-- Method `loadEPIs`. -/
def loadEPIs (s : Storage) : Except JSError JSValue :=
  let data := s.getItem "epis"
  if dataTruthy data then
    match data with
    | some text => JSON.parse text
    | none => .ok (.arr [])
  else .ok (.arr [])

/-- Method `loadMovements`. -/
def loadMovements (s : Storage) : Except JSError JSValue :=
  let data := s.getItem "movements"
  if dataTruthy data then
    match data with
    | some text => JSON.parse text
    | none => .ok (.arr [])
  else .ok (.arr [])

/-- The constructor: the values of `this.epis` and `this.movements`, or the
exception that escapes. -/
def constructor (s : Storage) : Except JSError (JSValue × JSValue) :=
  match loadEPIs s with
  | .error e => .error e
  | .ok epis =>
    match loadMovements s with
    | .error e => .error e
    | .ok movements => .ok (epis, movements)

/-- Method `saveEPIs`. -/
def saveEPIs (w : World) : World :=
  let text := JSON.stringify (.arr (w.db.epis.map EPI.toJS))
  { w with localStorage := w.localStorage.setItem "epis" text }

/-- Method `saveMovements`. -/
def saveMovements (w : World) : World :=
  let text := JSON.stringify (.arr (w.db.movements.map Movement.toJS))
  { w with localStorage := w.localStorage.setItem "movements" text }

/-- Method `addEPI`: returns the stored item. -/
def addEPI (w : World) (epi : EPIFields) (t : Tick) : World × EPI :=
  let stored : EPI := { epi with id := toString t.now, createdAt := t.date }
  (saveEPIs { w with db := { w.db with epis := w.db.epis ++ [stored] } }, stored)

/-- Method `updateEPI`: returns the updated item, `none` for `null`. -/
def updateEPI (w : World) (id : String) (updates : EPIUpdates) : World × Option EPI :=
  match w.db.epis.findIdx? (fun e => e.id == id) with
  | some index =>
    let epis := w.db.epis.modify (fun e => e.merge updates) index
    (saveEPIs { w with db := { w.db with epis := epis } }, epis[index]?)
  | none => (w, none)

/-- Method `deleteEPI`. -/
def deleteEPI (w : World) (id : String) : World :=
  saveEPIs { w with db := { w.db with epis := w.db.epis.filter (fun e => e.id != id) } }

/-- Method `getEPI`; `none` is `undefined`. -/
def getEPI (db : EPIDatabase) (id : String) : Option EPI :=
  db.epis.find? (fun e => e.id == id)

/-- Method `getAllEPIs`. -/
def getAllEPIs (db : EPIDatabase) : List EPI :=
  db.epis

/-- Method `addMovement`: returns the stored movement. -/
def addMovement (w : World) (movement : MovementFields) (t : Tick) : World × Movement :=
  let stored : Movement := { movement with id := toString t.now, timestamp := t.date }
  (saveMovements { w with db := { w.db with movements := w.db.movements ++ [stored] } },
   stored)

end EPIDatabase

/-- Model of `Array.prototype.sort(compare)`: a stable sort; `a` goes before `b`
unless `compare(a, b) > 0`. -/
def arraySort {α : Type} (compare : α → α → Int) (xs : List α) : List α :=
  xs.insertionSort (fun a b => compare a b ≤ 0)

/-- The comparator of `getAllMovements`:
`new Date(b.timestamp) - new Date(a.timestamp)`. -/
def compareMovements (a b : Movement) : Int :=
  (b.timestamp : Int) - (a.timestamp : Int)

/-- Method `getAllMovements`: sorts `this.movements` in place and returns it. -/
def EPIDatabase.getAllMovements (db : EPIDatabase) : List Movement × EPIDatabase :=
  let sorted := arraySort compareMovements db.movements
  (sorted, { db with movements := sorted })

/-! ## Form handlers -/

/-- The expression `s || d` on strings: `d` when `s` is empty. -/
def orDefault (s d : String) : String :=
  if s = "" then d else s

/-- Values read from the register form; the two numeric fields are given as
the result of `parseInt`. -/
structure RegisterForm where
  epiName : String
  epiCategory : String
  epiCode : String
  epiQuantity : JSNumber
  epiMinStock : JSNumber
  epiLocation : String
  epiValidade : String
  epiDescription : String
  deriving DecidableEq, Repr

/-- The `submit` handler of `registerForm`. `t1` is the clock of `addEPI`,
`t2` the clock of `addMovement`.  `db.epis[db.epis.length - 1]` is the last
item; the collection is never empty there, `addEPI` has just pushed. -/
def registerFormSubmit (w : World) (f : RegisterForm) (t1 t2 : Tick) : World × Notice :=
  let epi : EPIFields :=
    { name := f.epiName
      category := f.epiCategory
      code := orDefault f.epiCode "N/A"
      quantity := f.epiQuantity
      minStock := f.epiMinStock
      location := orDefault f.epiLocation "Não especificado"
      validade := orDefault f.epiValidade ""
      description := orDefault f.epiDescription "" }
  let w1 := (EPIDatabase.addEPI w epi t1).1
  let w2 :=
    if epi.quantity.gt (.int 0) then
      match w1.db.epis.getLast? with
      | some last =>
        (EPIDatabase.addMovement w1
          { epiId := last.id
            epiName := epi.name
            type := "entrada"
            quantity := epi.quantity
            responsible := "Sistema"
            reason := "Cadastro inicial"
            stockAfter := epi.quantity } t2).1
      | none => w1
    else w1
  (w2, .toast "Alimento cadastrado com sucesso!" "success")

/-- Values read from the movement form; the quantity is given as the result
of `parseInt`. -/
structure MovementForm where
  movementEpi : String
  movementType : String
  movementQuantity : JSNumber
  movementResponsible : String
  movementReason : String
  deriving DecidableEq, Repr

/-- The `submit` handler of `movementForm`. -/
def movementFormSubmit (w : World) (f : MovementForm) (t : Tick) : World × Notice :=
  let epiId := f.movementEpi
  let type := f.movementType
  let quantity := f.movementQuantity
  let responsible := f.movementResponsible
  let reason := orDefault f.movementReason "Sem observação"
  match w.db.getEPI epiId with
  | none => (w, .toast "Alimento não encontrado!" "error")
  | some epi =>
    if type == "saida" && quantity.gt epi.quantity then
      (w, .toast "Quantidade insuficiente em estoque!" "error")
    else
      let newQuantity :=
        if type == "entrada" then epi.quantity.add quantity else epi.quantity.sub quantity
      let w1 := (EPIDatabase.updateEPI w epiId { quantity := some newQuantity }).1
      let w2 :=
        (EPIDatabase.addMovement w1
          { epiId := epi.id
            epiName := epi.name
            type := type
            quantity := quantity
            responsible := responsible
            reason := reason
            stockAfter := newQuantity } t).1
      (w2, .toast
        ("Movimentação registrada! " ++ (if type == "entrada" then "Entrada" else "Saída")
          ++ " de " ++ quantity.toStr ++ " unidades.") "success")

/-- A finite sequence of movement-form submissions, applied in order. -/
def applyMovements (w : World) (submissions : List (MovementForm × Tick)) : World :=
  submissions.foldl (fun w s => (movementFormSubmit w s.1 s.2).1) w

/-! ## Export and import -/

/-- The expression `a || b` on values. -/
def JSValue.orElse (a b : JSValue) : JSValue :=
  if a.truthy then a else b

/-- The file handed to `baixarArquivo`. -/
structure Download where
  nomeArquivo : String
  conteudo : Text
  deriving DecidableEq

/-- The date part of an ISO string: `iso.split("T")[0]`. -/
def isoDatePart (iso : String) : String :=
  String.mk (iso.toList.takeWhile (fun c => c != 'T'))

/-- Function `exportarDados`; `t1` and `t2` are its two clock reads. -/
def exportarDados (db : EPIDatabase) (t1 t2 : Nat) : Download × Notice :=
  let dados : JSValue :=
    .obj [("epis", (JSValue.arr (db.epis.map EPI.toJS)).orElse (.arr [])),
          ("movements", (JSValue.arr (db.movements.map Movement.toJS)).orElse (.arr [])),
          ("dataExportacao", .str (toISOString t1)),
          ("versao", .str "1.0")]
  let json := JSON.stringify dados
  let dataFormatada := isoDatePart (toISOString t2)
  ({ nomeArquivo := "backup-epis-" ++ dataFormatada ++ ".json", conteudo := json },
   .toast "✅ Dados exportados!" "success")

/-- What `reader.onload` of `importarDados` leaves behind. -/
structure ImportResult where
  localStorage : Storage
  notice : Option Notice
  reload : Bool
  deriving DecidableEq

/-- What `importarDados` leaves behind when it rejects the file as invalid. -/
def importInvalid (s : Storage) : ImportResult :=
  { localStorage := s, notice := some (.alert "❌ Arquivo inválido!"), reload := false }

/-- What `importarDados` leaves behind when the `catch` block runs. -/
def importFailed (s : Storage) : ImportResult :=
  { localStorage := s, notice := some (.alert "❌ Erro ao importar!"), reload := false }

/-- The `try` block of `reader.onload`: `result` is the text of the chosen
file, `confirmed` the answer to `confirm`, asked only when the shape check
passes. -/
def importarDadosTry (s : Storage) (result : Text) (confirmed : Bool) :
    Except JSError ImportResult :=
  match JSON.parse result with
  | .error e => .error e
  | .ok dados =>
    match dados.getProp "epis" with
    | .error e => .error e
    | .ok epis =>
      if !epis.truthy then .ok (importInvalid s)
      else
        match dados.getProp "movements" with
        | .error e => .error e
        | .ok movements =>
          if !movements.truthy then .ok (importInvalid s)
          else if confirmed then
            let s1 := s.setItem "epis" (JSON.stringify epis)
            let s2 := s1.setItem "movements" (JSON.stringify movements)
            .ok { localStorage := s2,
                  notice := some (.toast "✅ Dados importados!" "success"),
                  reload := true }
          else
            .ok { localStorage := s, notice := none, reload := false }

/-- The handler `reader.onload` of `importarDados`, with its `catch`. -/
def importarDados (s : Storage) (result : Text) (confirmed : Bool) : ImportResult :=
  match importarDadosTry s result confirmed with
  | .ok r => r
  | .error _ => importFailed s

/-- The notice is an error toast. -/
def Notice.isError : Notice → Bool
  | .toast _ type => type == "error"
  | .alert _ => false

/-! ## Statistics and the low-stock report -/

/-- What `updateStats` writes to the page: the text of the elements
`totalAlim` and `lowStock`. -/
structure Stats where
  totalAlim : JSNumber
  lowStock : Nat
  deriving DecidableEq, Repr

/-- Function `updateStats`. -/
def updateStats (db : EPIDatabase) : Stats :=
  let epis := db.getAllEPIs
  let totalQuantity := epis.foldl (fun sum epi => sum.add epi.quantity) (.int 0)
  let lowStock := (epis.filter (fun epi => epi.quantity.le epi.minStock)).length
  { totalAlim := totalQuantity, lowStock := lowStock }

/-- A plain-text file handed to `baixarArquivo`. -/
structure TextFile where
  nomeArquivo : String
  conteudo : String
  deriving DecidableEq, Repr

/-- Function `gerarRelatorioEstoqueBaixo`.  `agora` is the string
`new Date().toLocaleString("pt-BR")`, which depends on the time zone of the
host, and `t` is the clock read that names the file.  `none` stands for the
early return, where no file is produced. -/
def gerarRelatorioEstoqueBaixo (db : EPIDatabase) (agora : String) (t : Nat) :
    Option TextFile × Notice :=
  let epis := db.getAllEPIs
  let episBaixos := epis.filter (fun epi => epi.quantity.le epi.minStock)
  if episBaixos.length = 0 then
    (none, .toast "✅ Nenhum alimento com estoque baixo!" "success")
  else
    let relatorio0 :=
      "RELATÓRIO DE ESTOQUE BAIXO - " ++ agora ++ "\n"
        ++ String.mk (List.replicate 70 '=') ++ "\n\n"
    let relatorio1 :=
      episBaixos.enum.foldl
        (fun relatorio (i, epi) =>
          (((relatorio ++ (toString (i + 1) ++ ". " ++ epi.name ++ "\n"))
            ++ ("   Estoque: " ++ epi.quantity.toStr ++ " (mínimo: "
                  ++ epi.minStock.toStr ++ ")\n"))
            ++ ("   Categoria: " ++ epi.category ++ "\n"))
            ++ ("   Localização: " ++ epi.location ++ "\n\n"))
        relatorio0
    let relatorio2 := relatorio1 ++ ("Total: " ++ toString episBaixos.length ++ " Alimentos\n")
    (some { nomeArquivo := "relatorio-" ++ isoDatePart (toISOString t) ++ ".txt",
            conteudo := relatorio2 },
     .toast ("📄 Relatório: " ++ toString episBaixos.length ++ " itens") "success")

/-- Low stock, in the words of the specification: `quantity <= minStock`,
both being numbers, with `-Infinity` below and `Infinity` above every
integer. -/
def EPI.isLowStock (e : EPI) : Prop :=
  e.quantity ≠ .nan ∧ e.minStock ≠ .nan ∧
    (e.quantity = .negInf ∨ e.minStock = .posInf ∨
      ∃ a b : Int, e.quantity = .int a ∧ e.minStock = .int b ∧ a ≤ b)

instance (e : EPI) : Decidable e.isLowStock :=
  decidable_of_iff (e.quantity.le e.minStock = true) (by
    unfold EPI.isLowStock
    cases e.quantity <;> cases e.minStock <;> simp [JSNumber.le])

/-- The low-stock items, in the words of the specification: the items with
`quantity <= minStock`, in the order of the item collection. -/
def lowStockItems (db : EPIDatabase) : List EPI :=
  db.epis.filter (fun e => decide e.isLowStock)

/-- The header of the report: title, generation time, rule line. -/
def reportHeader (agora : String) : String :=
  "RELATÓRIO DE ESTOQUE BAIXO - " ++ agora ++ "\n"
    ++ String.mk (List.replicate 70 '=') ++ "\n\n"

/-- The numbered block of the report for the item at position `i` (from 0)
of the listing: name, quantity against minimum, category, location. -/
def reportEntry (i : Nat) (e : EPI) : String :=
  toString (i + 1) ++ ". " ++ e.name ++ "\n"
    ++ "   Estoque: " ++ e.quantity.toStr ++ " (mínimo: " ++ e.minStock.toStr ++ ")\n"
    ++ "   Categoria: " ++ e.category ++ "\n"
    ++ "   Localização: " ++ e.location ++ "\n\n"

/-- The trailing line of the report for a listing of `n` items. -/
def reportTotal (n : Nat) : String :=
  "Total: " ++ toString n ++ " Alimentos\n"

/-! ## Predicates and concrete inputs of the properties -/

/-- Every item's quantity is a non-negative integer. -/
def NonNegStock (db : EPIDatabase) : Prop :=
  ∀ e ∈ db.epis, e.quantity.NonNeg

instance (db : EPIDatabase) : Decidable (NonNegStock db) :=
  inferInstanceAs (Decidable (∀ e ∈ db.epis, e.quantity.NonNeg))

/-- An item "Arroz" with id `1`, ten units on hand, minimum five. -/
def arroz : EPI :=
  { name := "Arroz", category := "Grãos", code := "N/A", quantity := .int 10,
    minStock := .int 5, location := "Não especificado", validade := "",
    description := "", id := "1", createdAt := 1700000000000 }

/-- A repository holding only `arroz`, already saved. -/
def arrozWorld : World :=
  EPIDatabase.saveEPIs { db := { epis := [arroz], movements := [] }, localStorage := [] }

/-- A movement form for item `1`. -/
def movementOf (type : String) (quantity : JSNumber) : MovementForm :=
  { movementEpi := "1", movementType := type, movementQuantity := quantity,
    movementResponsible := "Ana", movementReason := "" }

/-- A register form for "Arroz" with the given parsed quantity and minimum. -/
def registerOf (quantity minStock : JSNumber) : RegisterForm :=
  { epiName := "Arroz", epiCategory := "Grãos", epiCode := "", epiQuantity := quantity,
    epiMinStock := minStock, epiLocation := "", epiValidade := "", epiDescription := "" }

/-- A clock reading one second after item `1` was created. -/
def laterTick : Tick :=
  { now := 1700000001000, date := 1700000001000 }

/-- An empty repository over an empty store. -/
def emptyWorld : World :=
  { db := { epis := [], movements := [] }, localStorage := [] }

/-- The repository right after registering "Arroz" with a quantity field that
`parseInt` reads as `Infinity` (a digit string too long for a double). -/
def infWorld : World :=
  (registerFormSubmit emptyWorld (registerOf .posInf (.int 5)) laterTick laterTick).1

/-- The repository right after registering "Arroz" with a quantity field that
`parseInt` reads as `NaN`. -/
def nanWorld : World :=
  (registerFormSubmit emptyWorld (registerOf .nan (.int 5)) laterTick laterTick).1

/-- A snapshot whose two collections are not arrays. -/
def nonArraySnapshot : JSValue :=
  .obj [("epis", .num 1), ("movements", .str "x")]

/-- A snapshot without the `movements` key. -/
def noMovementsSnapshot : JSValue :=
  .obj [("epis", .arr [])]

/-- An item with the given id, name, quantity and minimum. -/
def itemOf (id name : String) (quantity minStock : JSNumber) : EPI :=
  { name := name, category := "Grãos", code := "N/A", quantity := quantity,
    minStock := minStock, location := "Despensa", validade := "", description := "",
    id := id, createdAt := 1700000000000 }

/-- A repository of three items: "Feijão" out of stock (0 against a minimum
of 5), "Arroz" exactly at its minimum (5 against 5) and "Milho" above it (6
against 5). -/
def lowStockDb : EPIDatabase :=
  { epis := [itemOf "1" "Feijão" (.int 0) (.int 5), itemOf "2" "Arroz" (.int 5) (.int 5),
             itemOf "3" "Milho" (.int 6) (.int 5)],
    movements := [] }

/-- A repository holding one unit of item `1`. -/
def oneUnitWorld : World :=
  EPIDatabase.saveEPIs
    { db := { epis := [itemOf "1" "Arroz" (.int 1) (.int 5)], movements := [] },
      localStorage := [] }

/-! # Properties -/

/-! ## Lists: the first element that satisfies a test -/

/-- The index `findIndex` returns: the length of the prefix that fails the test. -/
theorem findIdx?_split {α : Type} (p : α → Bool) (pre post : List α) (a : α)
    (hpre : ∀ x ∈ pre, p x = false) (ha : p a = true) :
    (pre ++ a :: post).findIdx? p = some pre.length := by
  induction pre with
  | nil => simp [ha]
  | cons x xs ih =>
    have hx : p x = false := hpre x (List.mem_cons_self _ _)
    have hxs : ∀ y ∈ xs, p y = false := fun y hy => hpre y (List.mem_cons_of_mem _ hy)
    have h := ih hxs
    simp [List.findIdx?_cons, hx, h]

/-- Assigning at the index right after a prefix replaces that one element. -/
theorem modify_split {α : Type} (f : α → α) (pre post : List α) (a : α) :
    (pre ++ a :: post).modify f pre.length = pre ++ f a :: post := by
  induction pre with
  | nil => simp
  | cons x xs ih => simp [ih]

/-- What `find` returns is preceded only by elements that fail the test. -/
theorem find?_split {α : Type} (p : α → Bool) (l : List α) (a : α)
    (h : l.find? p = some a) :
    ∃ pre post, l = pre ++ a :: post ∧ (∀ x ∈ pre, p x = false) ∧ p a = true := by
  obtain ⟨ha, pre, post, hl, hpre⟩ := List.find?_eq_some.mp h
  exact ⟨pre, post, hl, fun x hx => by simpa using hpre x hx, ha⟩

/-- What an accepted submission does to the two collections: the first item
with the submitted id gets the new quantity, one movement is appended. -/
theorem movementFormSubmit_accepted (w : World) (f : MovementForm) (t : Tick) (epi : EPI)
    (hget : w.db.getEPI f.movementEpi = some epi)
    (hok : (f.movementType == "saida" && f.movementQuantity.gt epi.quantity) = false) :
    ∃ pre post newQuantity,
      newQuantity = (if f.movementType == "entrada" then epi.quantity.add f.movementQuantity
        else epi.quantity.sub f.movementQuantity) ∧
      w.db.epis = pre ++ epi :: post ∧ (∀ x ∈ pre, x.id ≠ f.movementEpi) ∧
      epi.id = f.movementEpi ∧
      (movementFormSubmit w f t).1.db.epis
        = pre ++ { epi with quantity := newQuantity } :: post ∧
      (movementFormSubmit w f t).1.db.movements
        = w.db.movements ++
          [{ epiId := epi.id, epiName := epi.name, type := f.movementType,
             quantity := f.movementQuantity, responsible := f.movementResponsible,
             reason := orDefault f.movementReason "Sem observação",
             stockAfter := newQuantity, id := toString t.now, timestamp := t.date }] := by
  obtain ⟨pre, post, hl, hpre, ha⟩ := find?_split _ _ _ hget
  refine ⟨pre, post, _, rfl, hl, ?_, ?_, ?_, ?_⟩
  · intro x hx; simpa using hpre x hx
  · simpa using ha
  · simp only [movementFormSubmit, hget, hok]
    simp [EPIDatabase.updateEPI, EPIDatabase.addMovement, EPIDatabase.saveMovements,
      EPIDatabase.saveEPIs, hl, findIdx?_split _ pre post epi hpre ha, modify_split,
      EPI.merge]
  · simp only [movementFormSubmit, hget, hok]
    simp [EPIDatabase.updateEPI, EPIDatabase.addMovement, EPIDatabase.saveMovements,
      EPIDatabase.saveEPIs, hl, findIdx?_split _ pre post epi hpre ha, modify_split,
      EPI.merge]

namespace JSValue

/-! ## JSON: values that survive serialisation -/

mutual
/-- A value free of `NaN`, infinities and `undefined` is its own JSON image. -/
theorem toJSON_of_isJSON : ∀ v : JSValue, isJSON v = true → toJSON v = v
  | .undefined, h => by simp [isJSON] at h
  | .nan, h => by simp [isJSON] at h
  | .infinity _, h => by simp [isJSON] at h
  | .null, _ => rfl
  | .bool _, _ => rfl
  | .num _, _ => rfl
  | .str _, _ => rfl
  | .arr xs, h => by
    have := toJSONList_of_isJSON xs (by simpa [isJSON] using h)
    simp [toJSON, this]
  | .obj fs, h => by
    have := toJSONFields_of_isJSON fs (by simpa [isJSON] using h)
    simp [toJSON, this]
/-- The same for the elements of an array. -/
theorem toJSONList_of_isJSON : ∀ xs : List JSValue, isJSONList xs = true → toJSONList xs = xs
  | [], _ => rfl
  | v :: vs, h => by
    simp only [isJSONList, Bool.and_eq_true] at h
    simp [toJSONList, toJSON_of_isJSON v h.1, toJSONList_of_isJSON vs h.2]
/-- The same for the properties of an object. -/
theorem toJSONFields_of_isJSON :
    ∀ fs : List (String × JSValue), isJSONFields fs = true → toJSONFields fs = fs
  | [], _ => rfl
  | (k, v) :: fs, h => by
    simp only [isJSONFields, Bool.and_eq_true] at h
    have hv := toJSON_of_isJSON v h.1
    have hfs := toJSONFields_of_isJSON fs h.2
    cases v with
    | undefined => simp [isJSON] at h
    | _ => simp_all [toJSONFields]
end

mutual
/-- What `JSON.parse` returns is free of `NaN`, infinities and `undefined`. -/
theorem isJSON_toJSON : ∀ v : JSValue, isJSON (toJSON v) = true
  | .undefined => rfl
  | .nan => rfl
  | .infinity _ => rfl
  | .null => rfl
  | .bool _ => rfl
  | .num _ => rfl
  | .str _ => rfl
  | .arr xs => by simpa [toJSON, isJSON] using isJSONList_toJSONList xs
  | .obj fs => by simpa [toJSON, isJSON] using isJSONFields_toJSONFields fs
/-- The same for the elements of an array. -/
theorem isJSONList_toJSONList : ∀ xs : List JSValue, isJSONList (toJSONList xs) = true
  | [] => rfl
  | v :: vs => by
    simp [toJSONList, isJSONList, isJSON_toJSON v, isJSONList_toJSONList vs]
/-- The same for the properties of an object. -/
theorem isJSONFields_toJSONFields :
    ∀ fs : List (String × JSValue), isJSONFields (toJSONFields fs) = true
  | [] => rfl
  | (k, v) :: fs => by
    have hv := isJSON_toJSON v
    have hfs := isJSONFields_toJSONFields fs
    cases v with
    | undefined => simpa [toJSONFields] using hfs
    | _ => simp_all [toJSONFields, isJSONFields]
end

/-- Unfolding of `isJSONList` as a statement about the members. -/
theorem isJSONList_iff (xs : List JSValue) :
    isJSONList xs = true ↔ ∀ v ∈ xs, isJSON v = true := by
  induction xs with
  | nil => simp [isJSONList]
  | cons v vs ih => simp [isJSONList, ih]

end JSValue

/-- Parsing what was serialised gives the value back, for such a value. -/
theorem JSON.parse_stringify (v : JSValue) (h : v.isJSON = true) :
    JSON.parse (JSON.stringify v) = .ok v := by
  have h1 := JSValue.toJSON_of_isJSON v h
  cases v <;> simp_all [JSON.stringify, JSON.parse, JSValue.isJSON]

/-! ## The store -/

namespace Storage

/-- Reading a key right after writing it gives what was written. -/
theorem getItem_setItem_same (s : Storage) (k : String) (v : Text) :
    (setItem s k v).getItem k = some v := by
  induction s with
  | nil => simp [setItem, getItem, List.lookup]
  | cons p s ih =>
    obtain ⟨k', v'⟩ := p
    by_cases h : k' = k
    · simp [setItem, h, getItem, List.lookup]
    · have h' : (k == k') = false := by simpa using fun e => h e.symm
      simp only [setItem, h, if_false, getItem, List.lookup, h']
      exact ih

/-- Writing a key leaves every other key as it was. -/
theorem getItem_setItem_other (s : Storage) (k k' : String) (v : Text) (h : k' ≠ k) :
    (setItem s k v).getItem k' = s.getItem k' := by
  induction s with
  | nil =>
    have h' : (k' == k) = false := by simpa using h
    simp [setItem, getItem, List.lookup, h']
  | cons p s ih =>
    obtain ⟨k1, v1⟩ := p
    by_cases h1 : k1 = k
    · subst h1
      have h' : (k' == k1) = false := by simpa using h
      simp [setItem, getItem, List.lookup, h']
    · simp only [setItem, h1, if_false, getItem, List.lookup]
      cases hk : (k' == k1) with
      | true => rfl
      | false => exact ih

end Storage

/-! ## Export and import -/

/-- An item whose two numbers are finite serialises without loss. -/
theorem epi_toJS_isJSON (e : EPI) (hq : e.quantity.Finite) (hm : e.minStock.Finite) :
    e.toJS.isJSON = true := by
  cases h1 : e.quantity with
  | int a =>
    cases h2 : e.minStock with
    | int b => simp [EPI.toJS, h1, h2, JSNumber.toJS, JSValue.isJSON, JSValue.isJSONFields]
    | posInf => rw [h2] at hm; exact hm.elim
    | negInf => rw [h2] at hm; exact hm.elim
    | nan => rw [h2] at hm; exact hm.elim
  | posInf => rw [h1] at hq; exact hq.elim
  | negInf => rw [h1] at hq; exact hq.elim
  | nan => rw [h1] at hq; exact hq.elim

/-- A movement whose two numbers are finite serialises without loss. -/
theorem movement_toJS_isJSON (m : Movement) (hq : m.quantity.Finite)
    (hs : m.stockAfter.Finite) :
    m.toJS.isJSON = true := by
  cases h1 : m.quantity with
  | int a =>
    cases h2 : m.stockAfter with
    | int b =>
      simp [Movement.toJS, h1, h2, JSNumber.toJS, JSValue.isJSON, JSValue.isJSONFields]
    | posInf => rw [h2] at hs; exact hs.elim
    | negInf => rw [h2] at hs; exact hs.elim
    | nan => rw [h2] at hs; exact hs.elim
  | posInf => rw [h1] at hq; exact hq.elim
  | negInf => rw [h1] at hq; exact hq.elim
  | nan => rw [h1] at hq; exact hq.elim

/-- Importing an export object built from two lossless arrays and reloading
gives the two arrays back, whatever the store held. -/
theorem importarDados_roundtrip (s : Storage) (E M : List JSValue) (d v : String)
    (hE : JSValue.isJSONList E = true) (hM : JSValue.isJSONList M = true) :
    EPIDatabase.constructor
      (importarDados s
        (JSON.stringify
          (.obj [("epis", (JSValue.arr E).orElse (.arr [])),
                 ("movements", (JSValue.arr M).orElse (.arr [])),
                 ("dataExportacao", .str d), ("versao", .str v)])) true).localStorage
      = .ok (.arr E, .arr M) := by
  have hE' := JSValue.toJSONList_of_isJSON E hE
  have hM' := JSValue.toJSONList_of_isJSON M hM
  have h1 : ("movements" : String) ≠ "epis" := by decide
  have h2 : ("epis" : String) ≠ "movements" := by decide
  simp [importarDados, importarDadosTry, JSON.stringify, JSON.parse, JSValue.orElse,
    JSValue.truthy, JSValue.toJSON, JSValue.toJSONFields, JSValue.getProp, List.lookup,
    EPIDatabase.constructor, EPIDatabase.loadEPIs, EPIDatabase.loadMovements,
    Storage.getItem_setItem_same, Storage.getItem_setItem_other _ _ _ _ h2, dataTruthy,
    hE', hM']

/-! ## The form handlers -/

/-- A submission that does not end in an error toast found its item and passed
the stock check. -/
theorem movementFormSubmit_not_error (w : World) (f : MovementForm) (t : Tick)
    (hacc : (movementFormSubmit w f t).2.isError = false) :
    ∃ epi, w.db.getEPI f.movementEpi = some epi ∧
      (f.movementType == "saida" && f.movementQuantity.gt epi.quantity) = false := by
  cases hget : w.db.getEPI f.movementEpi with
  | none => simp [movementFormSubmit, hget, Notice.isError] at hacc
  | some epi =>
    refine ⟨epi, rfl, ?_⟩
    cases hok : (f.movementType == "saida" && f.movementQuantity.gt epi.quantity) with
    | false => rfl
    | true => simp [movementFormSubmit, hget, hok, Notice.isError] at hacc

/-! ## Numbers -/

set_option maxRecDepth 100000 in
/-- The number model on values where doubles and integers part ways: a sum
and a difference that are rounded, a sum that overflows, and numbers printed
with the shortest digits that read back, in exponent form from `1e21` on. -/
theorem number_model_examples :
    (JSNumber.int 1).add (.int 9007199254740992) = .int 9007199254740992 ∧
    (JSNumber.int 9007199254740992).add (.int 3) = .int 9007199254740996 ∧
    (JSNumber.int 1152921504606846976).sub (.int 1) = .int 1152921504606846976 ∧
    (JSNumber.int (-5)).toStr = "-5" ∧
    (JSNumber.int 9007199254740994).toStr = "9007199254740994" ∧
    (JSNumber.int 18446744073709551616).toStr = "18446744073709552000" ∧
    (JSNumber.int 1000000000000000000000).toStr = "1e+21" ∧
    (JSNumber.int 1180591620717411303424).toStr = "1.1805916207174113e+21" ∧
    JSNumber.posInf.sub .posInf = .nan ∧
    JSNumber.posInf.toStr = "Infinity" := by
  decide

/-- Rounding to a double keeps the sign: the double of an integer from 0 on
is not negative. -/
theorem ofInt_nonneg (n : Int) (h : 0 ≤ n) : (JSNumber.ofInt n).NonNeg := by
  have hn : ¬ n < 0 := by omega
  unfold JSNumber.ofInt
  simp only [hn, if_false]
  split_ifs
  all_goals first
    | exact h
    | trivial
    | exact Int.ofNat_nonneg _

/-- Below `2^53` in absolute value an integer is its own double. -/
theorem ofInt_of_safe (n : Int) (h : n.natAbs < 2 ^ 53) : JSNumber.ofInt n = .int n := by
  have h2 : n.natAbs < 9007199254740992 := by
    have : (2 : Nat) ^ 53 = 9007199254740992 := by norm_num
    omega
  simp [JSNumber.ofInt, h2]

/-- Adding an integer that is not negative to a stock that is not negative. -/
theorem add_nonneg (a : JSNumber) (n : Int) (ha : a.NonNeg) (hn : 0 ≤ n) :
    (a.add (.int n)).NonNeg := by
  cases a with
  | int k =>
    have hk : 0 ≤ k := ha
    exact ofInt_nonneg (k + n) (by omega)
  | posInf => trivial
  | negInf => exact ha.elim
  | nan => exact ha.elim

/-- Taking an integer that is not greater than the stock from a stock that is
not negative. -/
theorem sub_nonneg (a : JSNumber) (n : Int) (ha : a.NonNeg)
    (hgt : (JSNumber.int n).gt a = false) : (a.sub (.int n)).NonNeg := by
  cases a with
  | int k =>
    have hk : 0 ≤ k := ha
    have hle : ¬ n > k := by simpa [JSNumber.gt] using hgt
    exact ofInt_nonneg (k - n) (by omega)
  | posInf => trivial
  | negInf => exact ha.elim
  | nan => exact ha.elim

/-- One submission keeps the stock non-negative when an inbound quantity is
not negative. -/
theorem movement_step_nonneg (w : World) (f : MovementForm) (t : Tick)
    (hw : NonNegStock w.db)
    (hf : (f.movementType = "entrada" ∨ f.movementType = "saida") ∧
      ∃ n : Int, f.movementQuantity = .int n ∧ (f.movementType = "entrada" → 0 ≤ n)) :
    NonNegStock (movementFormSubmit w f t).1.db := by
  obtain ⟨htype, n, hn, hin⟩ := hf
  cases hget : w.db.getEPI f.movementEpi with
  | none => simpa [movementFormSubmit, hget] using hw
  | some epi =>
    cases hok : (f.movementType == "saida" && f.movementQuantity.gt epi.quantity) with
    | true => simpa [movementFormSubmit, hget, hok] using hw
    | false =>
      obtain ⟨pre, post, newQ, hnew, hl, -, -, hepis, -⟩ :=
        movementFormSubmit_accepted w f t epi hget hok
      have hepi : epi.quantity.NonNeg := hw epi (by rw [hl]; simp)
      have hnewQ : newQ.NonNeg := by
        rw [hnew, hn]
        rcases htype with h | h
        · rw [h]
          simp only [beq_self_eq_true, if_true]
          exact add_nonneg _ n hepi (hin h)
        · have hne : ("saida" == "entrada") = false := by decide
          rw [h, hn] at hok
          simp only [beq_self_eq_true, Bool.true_and] at hok
          rw [h]
          simp only [hne, Bool.false_eq_true, if_false]
          exact sub_nonneg _ n hepi hok
      intro e he
      rw [hepis] at he
      simp only [List.mem_append, List.mem_cons] at he
      rcases he with he | he | he
      · exact hw e (by rw [hl]; simp [he])
      · rw [he]; exact hnewQ
      · exact hw e (by rw [hl]; simp [he])

/-- The two collections after a registration. -/
theorem registerFormSubmit_db (w : World) (f : RegisterForm) (t1 t2 : Tick) :
    ∃ item : EPI,
      item.toEPIFields =
        { name := f.epiName, category := f.epiCategory, code := orDefault f.epiCode "N/A",
          quantity := f.epiQuantity, minStock := f.epiMinStock,
          location := orDefault f.epiLocation "Não especificado",
          validade := orDefault f.epiValidade "",
          description := orDefault f.epiDescription "" } ∧
      item.id = toString t1.now ∧ item.createdAt = t1.date ∧
      (registerFormSubmit w f t1 t2).1.db.epis = w.db.epis ++ [item] ∧
      (registerFormSubmit w f t1 t2).1.db.movements =
        if f.epiQuantity.gt (.int 0) then
          w.db.movements ++
            [{ epiId := item.id, epiName := item.name, type := "entrada",
               quantity := f.epiQuantity, responsible := "Sistema",
               reason := "Cadastro inicial", stockAfter := f.epiQuantity,
               id := toString t2.now, timestamp := t2.date }]
        else w.db.movements := by
  refine ⟨{ name := f.epiName, category := f.epiCategory, code := orDefault f.epiCode "N/A",
            quantity := f.epiQuantity, minStock := f.epiMinStock,
            location := orDefault f.epiLocation "Não especificado",
            validade := orDefault f.epiValidade "",
            description := orDefault f.epiDescription "",
            id := toString t1.now, createdAt := t1.date }, rfl, rfl, rfl, ?_, ?_⟩
  · cases hq : f.epiQuantity.gt (.int 0) <;>
      simp [registerFormSubmit, hq, EPIDatabase.addEPI, EPIDatabase.saveEPIs,
        EPIDatabase.addMovement, EPIDatabase.saveMovements]
  · cases hq : f.epiQuantity.gt (.int 0) <;>
      simp [registerFormSubmit, hq, EPIDatabase.addEPI, EPIDatabase.saveEPIs,
        EPIDatabase.addMovement, EPIDatabase.saveMovements]

/-! ## Sorting -/

/-- Sorting permutes. -/
theorem arraySort_perm {α : Type} (compare : α → α → Int) (xs : List α) :
    (arraySort compare xs).Perm xs :=
  List.perm_insertionSort _ xs

/-- Sorting is stable: elements that compare as equal among themselves keep
their order. -/
theorem arraySort_stable {α : Type} (compare : α → α → Int) (xs : List α) (p : α → Bool)
    (hp : ∀ a b, p a = true → p b = true → compare a b ≤ 0) :
    (arraySort compare xs).filter p = xs.filter p := by
  have hpw : (xs.filter p).Pairwise (fun a b => compare a b ≤ 0) := by
    rw [List.pairwise_iff_forall_sublist]
    intro a b hab
    have ha : a ∈ xs.filter p := hab.subset (by simp)
    have hb : b ∈ xs.filter p := hab.subset (by simp)
    exact hp a b (List.mem_filter.mp ha).2 (List.mem_filter.mp hb).2
  have hsub : (xs.filter p).Sublist (arraySort compare xs) :=
    List.sublist_insertionSort hpw (List.filter_sublist xs)
  have hsub2 : (xs.filter p).Sublist ((arraySort compare xs).filter p) := by
    have := hsub.filter p
    simpa using this
  have hlen : ((arraySort compare xs).filter p).length = (xs.filter p).length :=
    ((arraySort_perm compare xs).filter p).length_eq
  exact (hsub2.eq_of_length hlen.symm).symm

/-- The three outcomes of `importarDados` on a text that parses: failure on
`null`, rejection when a collection is missing or falsy, acceptance. -/
theorem importarDados_cases (s : Storage) (text : Text) (dados : JSValue) (confirmed : Bool)
    (hparse : JSON.parse text = .ok dados) :
    (dados.getProp "epis" = .error .typeError ∧
      importarDados s text confirmed = importFailed s) ∨
    (∃ epis movements, dados.getProp "epis" = .ok epis ∧
      dados.getProp "movements" = .ok movements ∧
      ((epis.truthy = false ∨ movements.truthy = false) ∧
          importarDados s text confirmed = importInvalid s ∨
        (epis.truthy = true ∧ movements.truthy = true) ∧
          importarDados s text confirmed =
            if confirmed then
              { localStorage :=
                  (s.setItem "epis" (JSON.stringify epis)).setItem "movements"
                    (JSON.stringify movements),
                notice := some (.toast "✅ Dados importados!" "success"), reload := true }
            else { localStorage := s, notice := none, reload := false })) := by
  cases dados with
  | undefined | null =>
    left
    simp [importarDados, importarDadosTry, hparse, JSValue.getProp, importFailed]
  | bool _ | num _ | nan | infinity _ | str _ | arr _ =>
    right
    refine ⟨.undefined, .undefined, rfl, rfl, Or.inl ⟨Or.inl rfl, ?_⟩⟩
    simp [importarDados, importarDadosTry, hparse, JSValue.getProp, JSValue.truthy,
      importInvalid]
  | obj fields =>
    right
    refine ⟨(fields.lookup "epis").getD .undefined,
      (fields.lookup "movements").getD .undefined, rfl, rfl, ?_⟩
    cases h1 : ((fields.lookup "epis").getD .undefined).truthy
    · left
      refine ⟨Or.inl rfl, ?_⟩
      simp [importarDados, importarDadosTry, hparse, JSValue.getProp, h1, importInvalid]
    · cases h2 : ((fields.lookup "movements").getD .undefined).truthy
      · left
        refine ⟨Or.inr rfl, ?_⟩
        simp [importarDados, importarDadosTry, hparse, JSValue.getProp, h1, h2, importInvalid]
      · right
        refine ⟨⟨rfl, rfl⟩, ?_⟩
        cases confirmed <;>
          simp [importarDados, importarDadosTry, hparse, JSValue.getProp, h1, h2]
/-! ## C1: non-negative stock -/

/-- C1, counterexample.  The claim lets an inbound movement carry any parsed
integer.  Item `1` holds 10 units; an `entrada` of `-15` is accepted and leaves
the item with `-5` units, so the stock is no longer non-negative. -/
theorem negative_inbound_breaks_nonneg :
    NonNegStock arrozWorld.db ∧
    (movementOf "entrada" (.int (-15))).movementType = "entrada" ∧
    (applyMovements arrozWorld [(movementOf "entrada" (.int (-15)), laterTick)]).db.epis.map
      (fun e => e.quantity) = [.int (-5)] ∧
    ¬ NonNegStock
      (applyMovements arrozWorld [(movementOf "entrada" (.int (-15)), laterTick)]).db := by
  decide

/-- C1, as amended.  Starting from a repository in which every item's quantity
is a non-negative integer, after every finite sequence of movement-form
submissions (any item id, type `entrada` or `saida`, any parsed integer
quantity that is not negative when the type is `entrada`), every item's
quantity is still a non-negative integer. -/
theorem nonneg_stock_preserved (w : World) (submissions : List (MovementForm × Tick))
    (hw : NonNegStock w.db)
    (hs : ∀ s ∈ submissions,
      (s.1.movementType = "entrada" ∨ s.1.movementType = "saida") ∧
      ∃ n : Int, s.1.movementQuantity = .int n ∧ (s.1.movementType = "entrada" → 0 ≤ n)) :
    NonNegStock (applyMovements w submissions).db := by
  induction submissions generalizing w with
  | nil => simpa [applyMovements] using hw
  | cons s rest ih =>
    have hstep := movement_step_nonneg w s.1 s.2 hw (hs s (List.mem_cons_self _ _))
    have := ih (movementFormSubmit w s.1 s.2).1 hstep
      (fun x hx => hs x (List.mem_cons_of_mem _ hx))
    simpa [applyMovements] using this

/-- C1, witness: an outbound of 3, an inbound of 8 and an outbound of 50 (the
last one rejected) applied to the repository holding 10 units of item `1`. -/
theorem nonneg_stock_preserved_witness :
    NonNegStock arrozWorld.db ∧
    NonNegStock
      (applyMovements arrozWorld
        [(movementOf "saida" (.int 3), laterTick), (movementOf "entrada" (.int 8), laterTick),
         (movementOf "saida" (.int 50), laterTick)]).db :=
  ⟨by decide,
   nonneg_stock_preserved arrozWorld _ (by decide) (by
    intro s hs
    simp only [List.mem_cons, List.mem_singleton, List.not_mem_nil, or_false] at hs
    rcases hs with h | h | h <;> subst h
    · exact ⟨Or.inr rfl, 3, rfl, by decide⟩
    · exact ⟨Or.inl rfl, 8, rfl, by decide⟩
    · exact ⟨Or.inr rfl, 50, rfl, by decide⟩)⟩

/-! ## C2: insufficient stock -/

/-- C2.  When the submitted id resolves to an item and the movement is a
`saida` whose quantity is greater than that item's quantity, the handler shows
the insufficient-stock error and returns the state it was given: items,
movements and the store are all unchanged, so no movement is created. -/
theorem insufficient_stock_rejected (w : World) (f : MovementForm) (t : Tick) (epi : EPI)
    (hget : w.db.getEPI f.movementEpi = some epi)
    (htype : f.movementType = "saida")
    (hgt : f.movementQuantity.gt epi.quantity = true) :
    movementFormSubmit w f t = (w, .toast "Quantidade insuficiente em estoque!" "error") := by
  simp [movementFormSubmit, hget, htype, hgt]

/-- C2, witness: scenario S3, an outbound of 50 against 10 units on hand. -/
theorem insufficient_stock_rejected_witness :
    arrozWorld.db.getEPI (movementOf "saida" (.int 50)).movementEpi = some arroz ∧
    movementFormSubmit arrozWorld (movementOf "saida" (.int 50)) laterTick
      = (arrozWorld, .toast "Quantidade insuficiente em estoque!" "error") :=
  ⟨by decide,
   insufficient_stock_rejected arrozWorld (movementOf "saida" (.int 50)) laterTick arroz
    (by decide) rfl (by decide)⟩

/-! ## C3: audit completeness -/

/-- C3.  When a movement-form submission does not end in an error toast, the
submitted id resolves to an item `epi`, the first one with that id; the item
collection afterwards is the one before with that item's quantity replaced by
`newQuantity` and nothing else changed, where `newQuantity` is
`epi.quantity + quantity` for `entrada` and `epi.quantity - quantity` for
`saida`, computed as JavaScript computes them on doubles, which is the exact
integer sum or difference whenever that is below `2^53` in absolute value;
and the movement collection has grown by exactly one record, whose
`stockAfter` is `newQuantity` and whose `epiId`, `type` and `quantity` are the
submitted ones. -/
theorem audit_completeness (w : World) (f : MovementForm) (t : Tick)
    (hacc : (movementFormSubmit w f t).2.isError = false) :
    ∃ epi pre post newQuantity,
      w.db.getEPI f.movementEpi = some epi ∧
      w.db.epis = pre ++ epi :: post ∧ (∀ x ∈ pre, x.id ≠ f.movementEpi) ∧
      (f.movementType = "entrada" → newQuantity = epi.quantity.add f.movementQuantity) ∧
      (f.movementType = "saida" → newQuantity = epi.quantity.sub f.movementQuantity) ∧
      (∀ a b : Int, f.movementType = "entrada" → epi.quantity = .int a →
        f.movementQuantity = .int b → (a + b).natAbs < 2 ^ 53 →
        newQuantity = .int (a + b)) ∧
      (∀ a b : Int, f.movementType = "saida" → epi.quantity = .int a →
        f.movementQuantity = .int b → (a - b).natAbs < 2 ^ 53 →
        newQuantity = .int (a - b)) ∧
      (movementFormSubmit w f t).1.db.epis
        = pre ++ { epi with quantity := newQuantity } :: post ∧
      ∃ m : Movement,
        (movementFormSubmit w f t).1.db.movements = w.db.movements ++ [m] ∧
        m.stockAfter = newQuantity ∧ m.epiId = f.movementEpi ∧
        m.type = f.movementType ∧ m.quantity = f.movementQuantity := by
  obtain ⟨epi, hget, hok⟩ := movementFormSubmit_not_error w f t hacc
  obtain ⟨pre, post, newQ, hnew, hl, hpre, hid, hepis, hmov⟩ :=
    movementFormSubmit_accepted w f t epi hget hok
  have hne : ("saida" == "entrada") = false := by decide
  refine ⟨epi, pre, post, newQ, hget, hl, hpre, ?_, ?_, ?_, ?_, hepis, _, hmov, rfl, hid,
    rfl, rfl⟩
  · intro h; rw [hnew, h]; rfl
  · intro h; rw [hnew, h]; rfl
  · intro a b h ha hb hsafe
    rw [hnew, h, ha, hb]
    simp only [beq_self_eq_true, if_true]
    exact ofInt_of_safe (a + b) hsafe
  · intro a b h ha hb hsafe
    rw [hnew, h, ha, hb]
    simp only [hne, Bool.false_eq_true, if_false]
    exact ofInt_of_safe (a - b) hsafe

/-- C3, witness: scenario S2, an outbound of 3 against 10 units on hand is
accepted, leaves 7 units and records a movement with `stockAfter` 7; and an
inbound of `2^53` against 1 unit on hand stores `2^53`, the sum as a double. -/
theorem audit_completeness_witness :
    (movementFormSubmit arrozWorld (movementOf "saida" (.int 3)) laterTick).2.isError = false ∧
    (movementFormSubmit arrozWorld (movementOf "saida" (.int 3)) laterTick).1.db.epis.map
      (fun e => e.quantity) = [.int 7] ∧
    (movementFormSubmit arrozWorld (movementOf "saida" (.int 3)) laterTick).1.db.movements.map
      (fun m => m.stockAfter) = [.int 7] ∧
    (movementFormSubmit oneUnitWorld (movementOf "entrada" (.int 9007199254740992))
      laterTick).1.db.epis.map (fun e => e.quantity) = [.int 9007199254740992] ∧
    ∃ (epi : EPI) (newQuantity : JSNumber) (m : Movement),
      arrozWorld.db.getEPI "1" = some epi ∧
      newQuantity = .int 7 ∧
      (movementFormSubmit arrozWorld (movementOf "saida" (.int 3)) laterTick).1.db.movements
        = arrozWorld.db.movements ++ [m] ∧
      m.stockAfter = newQuantity := by
  obtain ⟨epi, pre, post, newQ, hget, -, -, -, -, -, hsafe, -, m, hm, hst, -⟩ :=
    audit_completeness arrozWorld (movementOf "saida" (.int 3)) laterTick (by decide)
  have hepi : epi = arroz := by
    have h2 : arrozWorld.db.getEPI "1" = some arroz := by decide
    have h3 : arrozWorld.db.getEPI "1" = some epi := hget
    rw [h2] at h3
    exact (Option.some.inj h3).symm
  have hq : newQ = .int 7 := by
    have := hsafe 10 3 rfl (by rw [hepi]; rfl) rfl (by decide)
    simpa using this
  exact ⟨by decide, by decide, by decide, by decide, epi, newQ, m, hget, hq, hm, hst⟩

/-! ## C4: opening balance on registration -/

/-- C4.  Every registration appends exactly one item to the item collection,
carrying the registered quantity and name.  When the registered quantity is
greater than 0 the movement collection grows by exactly one movement, of type
`entrada`, with `quantity` and `stockAfter` equal to the registered quantity,
`responsible` "Sistema", `reason` "Cadastro inicial", and the new item's id
and name; otherwise, and so when the quantity is 0, the movement collection
is unchanged. -/
theorem register_opening_balance (w : World) (f : RegisterForm) (t1 t2 : Tick) :
    ∃ item : EPI,
      (registerFormSubmit w f t1 t2).1.db.epis = w.db.epis ++ [item] ∧
      item.quantity = f.epiQuantity ∧ item.name = f.epiName ∧
      (f.epiQuantity.gt (.int 0) = true →
        (registerFormSubmit w f t1 t2).1.db.movements
          = w.db.movements ++
            [{ epiId := item.id, epiName := item.name, type := "entrada",
               quantity := f.epiQuantity, responsible := "Sistema",
               reason := "Cadastro inicial", stockAfter := f.epiQuantity,
               id := toString t2.now, timestamp := t2.date }]) ∧
      (f.epiQuantity.gt (.int 0) = false →
        (registerFormSubmit w f t1 t2).1.db.movements = w.db.movements) ∧
      (f.epiQuantity = .int 0 →
        (registerFormSubmit w f t1 t2).1.db.movements = w.db.movements) := by
  obtain ⟨item, hfields, -, -, hepis, hmov⟩ := registerFormSubmit_db w f t1 t2
  refine ⟨item, hepis, ?_, ?_, ?_, ?_, ?_⟩
  · show item.toEPIFields.quantity = _
    rw [hfields]
  · show item.toEPIFields.name = _
    rw [hfields]
  · intro hq; rw [hmov, hq]; rfl
  · intro hq; rw [hmov, hq]; rfl
  · intro hq; rw [hmov, hq]; rfl

/-- C4, witness: scenario S1, registering "Arroz" with quantity 10 and minimum
5 in an empty repository gives one item with quantity 10 and one opening
movement. -/
theorem register_opening_balance_witness :
    (registerFormSubmit emptyWorld (registerOf (.int 10) (.int 5)) laterTick laterTick).1.db.epis.map
      (fun e => e.quantity) = [.int 10] ∧
    (registerFormSubmit emptyWorld (registerOf (.int 10) (.int 5)) laterTick laterTick).1.db.movements
      = [{ epiId := "1700000001000", epiName := "Arroz", type := "entrada",
           quantity := .int 10, responsible := "Sistema", reason := "Cadastro inicial",
           stockAfter := .int 10, id := "1700000001000", timestamp := 1700000001000 }] ∧
    (registerFormSubmit emptyWorld (registerOf (.int 0) (.int 5)) laterTick laterTick).1.db.movements
      = [] := by
  obtain ⟨item, -, -, -, -, -, h0⟩ :=
    register_opening_balance emptyWorld (registerOf (.int 0) (.int 5)) laterTick laterTick
  exact ⟨by decide, by decide, h0 rfl⟩

/-! ## C5: shape check of the import -/

/-- C5, counterexample.  A snapshot whose `epis` is the number 1 and whose
`movements` is the string "x" holds no array, yet it is not rejected: on
confirmation both store keys are overwritten with those values and the
success toast is shown. -/
theorem import_accepts_non_arrays :
    JSON.parse (.json nonArraySnapshot) = .ok nonArraySnapshot ∧
    (importarDados arrozWorld.localStorage (.json nonArraySnapshot) true)
      = { localStorage := [("epis", .json (.num 1)), ("movements", .json (.str "x"))],
          notice := some (.toast "✅ Dados importados!" "success"), reload := true } ∧
    (importarDados arrozWorld.localStorage (.json nonArraySnapshot) true).localStorage
      ≠ arrozWorld.localStorage := by
  decide

/-- C5, as amended.  For every parsed snapshot `dados`: the handler rejects it
as invalid exactly when `dados` is not null and its `epis` or its `movements`
property is missing or falsy (`null`, `false`, `0`, the empty string); when
both properties are truthy, arrays or not, the snapshot is accepted and, on
confirmation, both store keys are overwritten with them; a snapshot missing the
`movements` key is rejected; a snapshot whose two properties are arrays,
possibly empty, is accepted; whenever no reload is scheduled (rejection,
failure, or confirmation declined) the store is left as it was; and a null
snapshot fails with the import-error alert, no reload and the store as it
was. -/
theorem import_shape_check (s : Storage) (text : Text) (dados : JSValue) (confirmed : Bool)
    (hparse : JSON.parse text = .ok dados) :
    ((importarDados s text confirmed = importInvalid s) ↔
      ∃ epis movements, dados.getProp "epis" = .ok epis ∧
        dados.getProp "movements" = .ok movements ∧
        (epis.truthy = false ∨ movements.truthy = false)) ∧
    (∀ epis movements, dados.getProp "epis" = .ok epis →
      dados.getProp "movements" = .ok movements →
      epis.truthy = true → movements.truthy = true →
      (importarDados s text confirmed) =
        if confirmed then
          { localStorage :=
              (s.setItem "epis" (JSON.stringify epis)).setItem "movements"
                (JSON.stringify movements),
            notice := some (.toast "✅ Dados importados!" "success"), reload := true }
        else { localStorage := s, notice := none, reload := false }) ∧
    (∀ fields, dados = .obj fields → fields.lookup "movements" = none →
      (importarDados s text confirmed) = importInvalid s) ∧
    (∀ fields E M, dados = .obj fields → fields.lookup "epis" = some (.arr E) →
      fields.lookup "movements" = some (.arr M) →
      (importarDados s text true) =
        { localStorage :=
            (s.setItem "epis" (JSON.stringify (.arr E))).setItem "movements"
              (JSON.stringify (.arr M)),
          notice := some (.toast "✅ Dados importados!" "success"), reload := true }) ∧
    ((importarDados s text confirmed).reload = false →
      (importarDados s text confirmed).localStorage = s) ∧
    (dados = .null →
      (importarDados s text confirmed) =
        { localStorage := s, notice := some (.alert "❌ Erro ao importar!"),
          reload := false }) := by
  have hcases := importarDados_cases s text dados confirmed hparse
  refine ⟨⟨?_, ?_⟩, ?_, ?_, ?_, ?_, ?_⟩
  rotate_right 1
  · intro hnull
    subst hnull
    simp [importarDados, importarDadosTry, hparse, JSValue.getProp, importFailed]
  · intro hinv
    rcases hcases with ⟨-, h⟩ | ⟨e, m, he, hm, ⟨hf, -⟩ | ⟨-, h⟩⟩
    · rw [h] at hinv
      simp [importFailed, importInvalid] at hinv
    · exact ⟨e, m, he, hm, hf⟩
    · rw [h] at hinv
      cases confirmed <;> simp [importInvalid] at hinv
  · rintro ⟨e, m, he, hm, hf⟩
    rcases hcases with ⟨h, -⟩ | ⟨e2, m2, he2, hm2, ⟨-, h⟩ | ⟨⟨h1, h2⟩, -⟩⟩
    · rw [h] at he; cases he
    · exact h
    · rw [he] at he2; rw [hm] at hm2
      cases he2; cases hm2
      rcases hf with hf | hf
      · rw [hf] at h1; cases h1
      · rw [hf] at h2; cases h2
  · intro e m he hm h1 h2
    rcases hcases with ⟨h, -⟩ | ⟨e2, m2, he2, hm2, ⟨hf, -⟩ | ⟨-, h⟩⟩
    · rw [h] at he; cases he
    · rw [he] at he2; rw [hm] at hm2
      cases he2; cases hm2
      rcases hf with hf | hf
      · rw [hf] at h1; cases h1
      · rw [hf] at h2; cases h2
    · rw [he] at he2; rw [hm] at hm2
      cases he2; cases hm2
      exact h
  · intro fields hd hl
    subst hd
    cases h1 : (((fields.lookup "epis").getD .undefined)).truthy <;>
      simp [importarDados, importarDadosTry, hparse, JSValue.getProp, hl, h1,
        JSValue.truthy, importInvalid]
  · intro fields E M hd h1 h2
    subst hd
    simp [importarDados, importarDadosTry, hparse, JSValue.getProp, h1, h2, JSValue.truthy]
  · intro hr
    rcases hcases with ⟨-, h⟩ | ⟨e, m, -, -, ⟨-, h⟩ | ⟨-, h⟩⟩
    · rw [h]; rfl
    · rw [h]; rfl
    · rw [h] at hr ⊢
      cases confirmed
      · rfl
      · simp at hr

/-- C5, witness: scenario S4, a snapshot without the `movements` key is
rejected as invalid and the store is the one before; and the snapshot `null`
ends in the import-error alert, with the store the one before. -/
theorem import_shape_check_witness :
    JSON.parse (.json noMovementsSnapshot) = .ok noMovementsSnapshot ∧
    importarDados arrozWorld.localStorage (.json noMovementsSnapshot) true
      = importInvalid arrozWorld.localStorage ∧
    JSON.parse (.json .null) = .ok .null ∧
    importarDados arrozWorld.localStorage (.json .null) true
      = { localStorage := arrozWorld.localStorage,
          notice := some (.alert "❌ Erro ao importar!"), reload := false } :=
  ⟨by decide,
   (import_shape_check arrozWorld.localStorage (.json noMovementsSnapshot)
      noMovementsSnapshot true (by decide)).2.2.1 _ rfl (by decide),
   by decide,
   (import_shape_check arrozWorld.localStorage (.json .null) .null true
      (by decide)).2.2.2.2.2 rfl⟩

/-! ## C6: export / import round trip -/

/-- C6, counterexample.  After registering an item whose quantity field reads
as `NaN`, the item collection holds `NaN`; exporting, importing with
confirmation and reloading yields an item whose quantity is `null`, which is
not the collection that was exported.  The same happens after registering an
item whose quantity field reads as `Infinity`. -/
theorem roundtrip_loses_nan :
    nanWorld.db.epis.map (fun e => e.quantity) = [.nan] ∧
    EPIDatabase.constructor
      (importarDados nanWorld.localStorage
        (exportarDados nanWorld.db 1700000002000 1700000002000).1.conteudo true).localStorage
      = .ok (.arr [.obj [("name", .str "Arroz"), ("category", .str "Grãos"),
          ("code", .str "N/A"), ("quantity", .null), ("minStock", .num 5),
          ("location", .str "Não especificado"), ("validade", .str ""),
          ("description", .str ""), ("id", .str "1700000001000"),
          ("createdAt", .str "2023-11-14T22:13:21.000Z")]], .arr []) ∧
    EPIDatabase.constructor
      (importarDados nanWorld.localStorage
        (exportarDados nanWorld.db 1700000002000 1700000002000).1.conteudo true).localStorage
      ≠ .ok (.arr (nanWorld.db.epis.map EPI.toJS),
             .arr (nanWorld.db.movements.map Movement.toJS)) ∧
    infWorld.db.epis.map (fun e => e.quantity) = [.posInf] ∧
    EPIDatabase.constructor
      (importarDados infWorld.localStorage
        (exportarDados infWorld.db 1700000002000 1700000002000).1.conteudo true).localStorage
      ≠ .ok (.arr (infWorld.db.epis.map EPI.toJS),
             .arr (infWorld.db.movements.map Movement.toJS)) := by
  decide

/-- C6, as amended.  For every repository state in which every item's
`quantity` and `minStock` and every movement's `quantity` and `stockAfter` is
finite, that is neither `NaN` nor an infinity (empty collections included),
and whatever the store held before: importing with
confirmation the file produced by `exportarDados` succeeds, and constructing
the repository from the store afterwards yields exactly the exported item
collection and movement collection: same elements, same field values, same
order. -/
theorem export_import_roundtrip (w : World) (t1 t2 : Nat)
    (hE : ∀ e ∈ w.db.epis, e.quantity.Finite ∧ e.minStock.Finite)
    (hM : ∀ m ∈ w.db.movements, m.quantity.Finite ∧ m.stockAfter.Finite) :
    EPIDatabase.constructor
      (importarDados w.localStorage (exportarDados w.db t1 t2).1.conteudo true).localStorage
      = .ok (.arr (w.db.epis.map EPI.toJS), .arr (w.db.movements.map Movement.toJS)) := by
  have hE2 : JSValue.isJSONList (w.db.epis.map EPI.toJS) = true := by
    rw [JSValue.isJSONList_iff]
    intro v hv
    obtain ⟨e, he, rfl⟩ := List.mem_map.mp hv
    exact epi_toJS_isJSON e (hE e he).1 (hE e he).2
  have hM2 : JSValue.isJSONList (w.db.movements.map Movement.toJS) = true := by
    rw [JSValue.isJSONList_iff]
    intro v hv
    obtain ⟨m, hm, rfl⟩ := List.mem_map.mp hv
    exact movement_toJS_isJSON m (hM m hm).1 (hM m hm).2
  exact importarDados_roundtrip w.localStorage _ _ _ _ hE2 hM2

/-- C6, witness: the repository holding 10 units of "Arroz" and the movement
that took 3 of them. -/
theorem export_import_roundtrip_witness :
    (movementFormSubmit arrozWorld (movementOf "saida" (.int 3)) laterTick).1.db.movements.length
      = 1 ∧
    EPIDatabase.constructor
      (importarDados []
        (exportarDados (movementFormSubmit arrozWorld (movementOf "saida" (.int 3)) laterTick).1.db
          1700000002000 1700000002000).1.conteudo true).localStorage
      = .ok (.arr ((movementFormSubmit arrozWorld (movementOf "saida" (.int 3))
                laterTick).1.db.epis.map EPI.toJS),
             .arr ((movementFormSubmit arrozWorld (movementOf "saida" (.int 3))
                laterTick).1.db.movements.map Movement.toJS)) :=
  ⟨by decide,
   export_import_roundtrip
    { db := (movementFormSubmit arrozWorld (movementOf "saida" (.int 3)) laterTick).1.db,
      localStorage := [] }
    1700000002000 1700000002000 (by decide) (by decide)⟩

/-! ## C7: ordering of the movement listing -/

/-- C7.  For every movement collection, `getAllMovements` returns a
permutation of the stored movements, ordered by timestamp descending, in
which the movements of any one timestamp appear in the same relative order as
in the collection before the call; the call leaves that sorted list in
`db.movements` and does not touch the items. -/
theorem getAllMovements_sorted_stable (db : EPIDatabase) :
    (db.getAllMovements.1).Perm db.movements ∧
    (db.getAllMovements.1).Pairwise (fun a b => a.timestamp ≥ b.timestamp) ∧
    (∀ t : Nat, (db.getAllMovements.1).filter (fun m => m.timestamp == t)
      = db.movements.filter (fun m => m.timestamp == t)) ∧
    db.getAllMovements.2.movements = db.getAllMovements.1 ∧
    db.getAllMovements.2.epis = db.epis := by
  refine ⟨arraySort_perm _ _, ?_, ?_, rfl, rfl⟩
  · haveI : IsTotal Movement (fun a b => compareMovements a b ≤ 0) :=
      ⟨fun a b => by simp only [compareMovements]; omega⟩
    haveI : IsTrans Movement (fun a b => compareMovements a b ≤ 0) :=
      ⟨fun a b c => by simp only [compareMovements]; omega⟩
    have h := List.sorted_insertionSort (fun a b => compareMovements a b ≤ 0) db.movements
    refine List.Pairwise.imp ?_ h
    intro a b hab
    simp only [compareMovements] at hab
    omega
  · intro t
    apply arraySort_stable
    intro a b ha hb
    simp only [beq_iff_eq] at ha hb
    simp only [compareMovements]
    omega

/-! ## C8: validation on registration -/

/-- C8, counterexample.  Registering "Arroz" with quantity `-4` and a minimum
that reads as `NaN` shows the success toast and appends the item with those
values: the state has changed and no validation error is reported. -/
theorem register_accepts_negative :
    (registerFormSubmit arrozWorld (registerOf (.int (-4)) .nan) laterTick laterTick).2
      = .toast "Alimento cadastrado com sucesso!" "success" ∧
    (registerFormSubmit arrozWorld (registerOf (.int (-4)) .nan) laterTick laterTick).1.db.epis
      = arrozWorld.db.epis ++
        [{ name := "Arroz", category := "Grãos", code := "N/A", quantity := .int (-4),
           minStock := .nan, location := "Não especificado", validade := "",
           description := "", id := "1700000001000", createdAt := 1700000001000 }] ∧
    (registerFormSubmit arrozWorld (registerOf (.int (-4)) .nan) laterTick laterTick).1
      ≠ arrozWorld := by
  decide

/-- C8, as amended.  The register handler validates nothing: for every
registration input, also one whose quantity or minStock is negative or `NaN`,
it shows the success toast and appends exactly one item carrying the parsed
quantity and minStock as they are; the movement collection gains the opening
movement when the quantity is greater than 0 and is unchanged otherwise. -/
theorem register_never_validates (w : World) (f : RegisterForm) (t1 t2 : Tick) :
    (registerFormSubmit w f t1 t2).2 = .toast "Alimento cadastrado com sucesso!" "success" ∧
    ∃ item : EPI,
      (registerFormSubmit w f t1 t2).1.db.epis = w.db.epis ++ [item] ∧
      item.quantity = f.epiQuantity ∧ item.minStock = f.epiMinStock ∧
      (registerFormSubmit w f t1 t2).1.db.movements =
        if f.epiQuantity.gt (.int 0) then
          w.db.movements ++
            [{ epiId := item.id, epiName := item.name, type := "entrada",
               quantity := f.epiQuantity, responsible := "Sistema",
               reason := "Cadastro inicial", stockAfter := f.epiQuantity,
               id := toString t2.now, timestamp := t2.date }]
        else w.db.movements := by
  obtain ⟨item, hfields, -, -, hepis, hmov⟩ := registerFormSubmit_db w f t1 t2
  refine ⟨rfl, item, hepis, ?_, ?_, hmov⟩
  · show item.toEPIFields.quantity = _
    rw [hfields]
  · show item.toEPIFields.minStock = _
    rw [hfields]

/-! ## C9: loading from the store -/

/-- C9, counterexample.  With a non-empty text under `epis` (or `movements`)
that `JSON.parse` rejects, the loader does not return the empty collection: the
`SyntaxError` escapes it, and escapes the constructor. -/
theorem load_throws_on_malformed :
    JSON.parse .malformed = .error .syntaxError ∧
    EPIDatabase.loadEPIs [("epis", .malformed)] = .error .syntaxError ∧
    EPIDatabase.loadMovements [("movements", .malformed)] = .error .syntaxError ∧
    EPIDatabase.constructor [("epis", .malformed)] = .error .syntaxError := by
  decide

/-- C9, as amended.  For every store content, `loadEPIs` and `loadMovements`
return the empty collection when their key is missing or holds the empty
string, return the parsed array when the key holds the JSON text of an array,
and fail with the exception of `JSON.parse` when the key holds a non-empty
text that does not parse; the constructor lets that exception through. -/
theorem load_contract (s : Storage) :
    (s.getItem "epis" = none → EPIDatabase.loadEPIs s = .ok (.arr [])) ∧
    (s.getItem "movements" = none → EPIDatabase.loadMovements s = .ok (.arr [])) ∧
    (s.getItem "epis" = some .empty → EPIDatabase.loadEPIs s = .ok (.arr [])) ∧
    (s.getItem "movements" = some .empty → EPIDatabase.loadMovements s = .ok (.arr [])) ∧
    (∀ text xs, s.getItem "epis" = some text → JSON.parse text = .ok (.arr xs) →
      EPIDatabase.loadEPIs s = .ok (.arr xs)) ∧
    (∀ text xs, s.getItem "movements" = some text → JSON.parse text = .ok (.arr xs) →
      EPIDatabase.loadMovements s = .ok (.arr xs)) ∧
    (∀ text e, s.getItem "epis" = some text → text ≠ .empty → JSON.parse text = .error e →
      EPIDatabase.loadEPIs s = .error e) ∧
    (∀ text e, s.getItem "movements" = some text → text ≠ .empty →
      JSON.parse text = .error e → EPIDatabase.loadMovements s = .error e) ∧
    (∀ e, EPIDatabase.loadEPIs s = .error e → EPIDatabase.constructor s = .error e) ∧
    (∀ v e, EPIDatabase.loadEPIs s = .ok v → EPIDatabase.loadMovements s = .error e →
      EPIDatabase.constructor s = .error e) := by
  refine ⟨?_, ?_, ?_, ?_, ?_, ?_, ?_, ?_, ?_, ?_⟩
  rotate_left 8
  · intro e h; simp [EPIDatabase.constructor, h]
  · intro v e h1 h2; simp [EPIDatabase.constructor, h1, h2]
  · intro h; simp [EPIDatabase.loadEPIs, h, dataTruthy]
  · intro h; simp [EPIDatabase.loadMovements, h, dataTruthy]
  · intro h; simp [EPIDatabase.loadEPIs, h, dataTruthy]
  · intro h; simp [EPIDatabase.loadMovements, h, dataTruthy]
  · intro text xs h hp
    cases text <;> simp_all [EPIDatabase.loadEPIs, dataTruthy, JSON.parse]
  · intro text xs h hp
    cases text <;> simp_all [EPIDatabase.loadMovements, dataTruthy, JSON.parse]
  · intro text e h hne hp
    cases text <;> simp_all [EPIDatabase.loadEPIs, dataTruthy, JSON.parse]
  · intro text e h hne hp
    cases text <;> simp_all [EPIDatabase.loadMovements, dataTruthy, JSON.parse]

/-- C9, witness: a store that holds saved items and no `movements` key. -/
theorem load_contract_witness :
    arrozWorld.localStorage.getItem "movements" = none ∧
    EPIDatabase.loadMovements arrozWorld.localStorage = .ok (.arr []) ∧
    EPIDatabase.loadEPIs arrozWorld.localStorage = .ok (.arr [arroz.toJS]) :=
  ⟨by decide, (load_contract arrozWorld.localStorage).2.1 (by decide),
   (load_contract arrozWorld.localStorage).2.2.2.2.1 (.json (.arr [arroz.toJS])) [arroz.toJS]
     (by decide) (by decide)⟩

/-! ## C10: deleting an item keeps its movements -/

/-- C10.  For every repository state and every id, `deleteEPI` keeps exactly
the items whose id differs from the given one, in their order (so nothing
changes when no item has that id), and leaves the movement collection and the
stored `movements` text as they were; `getAllMovements` after the delete
returns the same list as before it, the movements of the deleted item
included, unaltered. -/
theorem deleteEPI_keeps_movements (w : World) (id : String) :
    (EPIDatabase.deleteEPI w id).db.epis = w.db.epis.filter (fun e => e.id != id) ∧
    ((∀ e ∈ w.db.epis, e.id ≠ id) → (EPIDatabase.deleteEPI w id).db.epis = w.db.epis) ∧
    (EPIDatabase.deleteEPI w id).db.movements = w.db.movements ∧
    (EPIDatabase.deleteEPI w id).localStorage.getItem "movements"
      = w.localStorage.getItem "movements" ∧
    (EPIDatabase.deleteEPI w id).db.getAllMovements.1 = w.db.getAllMovements.1 := by
  refine ⟨rfl, ?_, rfl, ?_, rfl⟩
  · intro h
    show w.db.epis.filter (fun e => e.id != id) = w.db.epis
    rw [List.filter_eq_self]
    intro e he
    simpa using h e he
  · exact Storage.getItem_setItem_other _ _ _ _ (by decide)

/-- C10, witness: after an outbound of 3 on item `1`, deleting item `1`
empties the item collection and the listing still returns the movement, with
`epiId` "1" and `epiName` "Arroz"; deleting an id nobody has changes no item. -/
theorem deleteEPI_keeps_movements_witness :
    (EPIDatabase.deleteEPI
        (movementFormSubmit arrozWorld (movementOf "saida" (.int 3)) laterTick).1 "1").db.epis
      = [] ∧
    (EPIDatabase.deleteEPI
        (movementFormSubmit arrozWorld (movementOf "saida" (.int 3)) laterTick).1
        "1").db.getAllMovements.1.map (fun m => (m.epiId, m.epiName))
      = [("1", "Arroz")] ∧
    (EPIDatabase.deleteEPI arrozWorld "2").db.epis = arrozWorld.db.epis :=
  ⟨by decide, by decide,
   (deleteEPI_keeps_movements arrozWorld "2").2.1 (by decide)⟩

/-! ## Statistics and the low-stock report -/

/-- The test of the source, `epi.quantity <= epi.minStock`, is the low-stock
test of the specification. -/
theorem le_iff_isLowStock (e : EPI) : e.quantity.le e.minStock = true ↔ e.isLowStock := by
  unfold EPI.isLowStock
  cases hq : e.quantity <;> cases hm : e.minStock <;> simp [JSNumber.le]

/-- The list both functions filter out of the item collection is the list of
low-stock items. -/
theorem filter_le_eq_lowStockItems (db : EPIDatabase) :
    db.epis.filter (fun epi => epi.quantity.le epi.minStock) = lowStockItems db := by
  unfold lowStockItems
  apply List.filter_congr
  intro e _
  cases h : e.quantity.le e.minStock
  · have : ¬ e.isLowStock := fun hl => by
      rw [(le_iff_isLowStock e).mpr hl] at h
      cases h
    simp [this]
  · simp [(le_iff_isLowStock e).mp h]

/-- Appending a list of strings one by one to `a` appends their join. -/
theorem foldl_append_eq (a : String) (l : List String) :
    l.foldl (fun r s => r ++ s) a = a ++ String.join l := by
  induction l generalizing a with
  | nil => simp [String.join]
  | cons x xs ih =>
    have h1 := ih (a ++ x)
    have h2 := ih ("" ++ x)
    simp only [String.join, List.foldl_cons] at h1 h2 ⊢
    rw [h1, h2, String.empty_append, String.append_assoc]

/-- The join of a non-empty list of strings. -/
theorem join_cons (x : String) (xs : List String) :
    String.join (x :: xs) = x ++ String.join xs := by
  have := foldl_append_eq x xs
  simpa [String.join] using this

/-- The loop of the report appends, to what it starts from, the entries of the
listed items. -/
theorem report_loop (l : List (Nat × EPI)) (r : String) :
    l.foldl
        (fun relatorio (p : Nat × EPI) =>
          (((relatorio ++ (toString (p.1 + 1) ++ ". " ++ p.2.name ++ "\n"))
            ++ ("   Estoque: " ++ p.2.quantity.toStr ++ " (mínimo: "
                  ++ p.2.minStock.toStr ++ ")\n"))
            ++ ("   Categoria: " ++ p.2.category ++ "\n"))
            ++ ("   Localização: " ++ p.2.location ++ "\n\n"))
        r
      = r ++ String.join (l.map (fun p => reportEntry p.1 p.2)) := by
  induction l generalizing r with
  | nil => simp [String.join]
  | cons p ps ih =>
    simp only [List.foldl_cons, List.map_cons, join_cons]
    rw [ih]
    simp only [reportEntry, String.append_assoc]

/-- The total of `updateStats` over integer quantities, from any start: the
exact sum, as long as the absolute values add up to less than `2^53`, so that
no partial sum is rounded. -/
theorem foldl_add_ints (es : List EPI) (qs : List Int) (k : Int)
    (h : es.map (fun e => e.quantity) = qs.map JSNumber.int)
    (hsafe : k.natAbs + (qs.map Int.natAbs).sum < 2 ^ 53) :
    es.foldl (fun (sum : JSNumber) epi => sum.add epi.quantity) (.int k)
      = .int (k + qs.sum) := by
  induction es generalizing qs k with
  | nil =>
    cases qs with
    | nil => simp
    | cons _ _ => simp at h
  | cons e es ih =>
    cases qs with
    | nil => simp at h
    | cons q qs =>
      simp only [List.map_cons, List.cons.injEq] at h
      simp only [List.map_cons, List.sum_cons] at hsafe
      have hstep : (JSNumber.int k).add e.quantity = .int (k + q) := by
        rw [h.1]
        exact ofInt_of_safe (k + q) (by omega)
      simp only [List.foldl_cons, List.sum_cons]
      rw [hstep, ih qs (k + q) h.2 (by omega)]
      congr 1
      omega

/-- Once the running total is `NaN` it stays `NaN`. -/
theorem foldl_add_nan (es : List EPI) :
    es.foldl (fun (sum : JSNumber) epi => sum.add epi.quantity) .nan = .nan := by
  induction es with
  | nil => rfl
  | cons e es ih =>
    have hstep : JSNumber.nan.add e.quantity = .nan := by cases e.quantity <;> rfl
    simp only [List.foldl_cons]
    rw [hstep, ih]

/-- One `NaN` quantity makes the total `NaN`. -/
theorem foldl_add_of_nan (es : List EPI) (s : JSNumber)
    (h : ∃ e ∈ es, e.quantity = .nan) :
    es.foldl (fun (sum : JSNumber) epi => sum.add epi.quantity) s = .nan := by
  induction es generalizing s with
  | nil => simp at h
  | cons e es ih =>
    obtain ⟨x, hx, hq⟩ := h
    simp only [List.foldl_cons]
    rcases List.mem_cons.mp hx with rfl | hx2
    · rw [hq]
      have : s.add .nan = .nan := by cases s <;> rfl
      rw [this]
      exact foldl_add_nan es
    · exact ih _ ⟨x, hx2, hq⟩

/-- The file `gerarRelatorioEstoqueBaixo` produces, from the list it filters. -/
theorem gerarRelatorio_file (db : EPIDatabase) (agora : String) (t : Nat) :
    (gerarRelatorioEstoqueBaixo db agora t).1 =
      if lowStockItems db = [] then none
      else some
        { nomeArquivo := "relatorio-" ++ isoDatePart (toISOString t) ++ ".txt",
          conteudo :=
            reportHeader agora
              ++ String.join ((lowStockItems db).enum.map (fun p => reportEntry p.1 p.2))
              ++ reportTotal (lowStockItems db).length } := by
  have hloop := report_loop (lowStockItems db).enum (reportHeader agora)
  have hfun :
      (fun relatorio (x : Nat × EPI) =>
        match x with
        | (i, epi) =>
          (((relatorio ++ (toString (i + 1) ++ ". " ++ epi.name ++ "\n"))
            ++ ("   Estoque: " ++ epi.quantity.toStr ++ " (mínimo: "
                  ++ epi.minStock.toStr ++ ")\n"))
            ++ ("   Categoria: " ++ epi.category ++ "\n"))
            ++ ("   Localização: " ++ epi.location ++ "\n\n"))
      = (fun relatorio (p : Nat × EPI) =>
          (((relatorio ++ (toString (p.1 + 1) ++ ". " ++ p.2.name ++ "\n"))
            ++ ("   Estoque: " ++ p.2.quantity.toStr ++ " (mínimo: "
                  ++ p.2.minStock.toStr ++ ")\n"))
            ++ ("   Categoria: " ++ p.2.category ++ "\n"))
            ++ ("   Localização: " ++ p.2.location ++ "\n\n")) := by
    funext relatorio x
    cases x
    rfl
  unfold gerarRelatorioEstoqueBaixo
  simp only [EPIDatabase.getAllEPIs, filter_le_eq_lowStockItems, List.length_eq_zero]
  by_cases h : lowStockItems db = []
  · simp [h]
  · simp only [h, if_false]
    rw [hfun, ← reportHeader, hloop]
    rfl

/-! ## C11: low-stock report and statistics -/

/-- C11.  For every item collection: the list `gerarRelatorioEstoqueBaixo`
reports on is the list of the items with `quantity <= minStock`, in the order
of the item collection (an item whose quantity equals its minimum is listed,
one whose quantity is greater is not); when that list is empty the function
returns early and produces no file, otherwise the file is the header, one
numbered entry per listed item in that order, the numbers printed as
JavaScript prints them, and the trailing line "Total: n Alimentos" where `n`
is the number of listed items; `n` is also the low-stock count of
`updateStats`; and the total of `updateStats` is the sum of the quantities of
all items, added from the left as JavaScript adds doubles: the exact integer
sum whenever the absolute values of the quantities add up to less than
`2^53`, and `NaN` as soon as one quantity is `NaN`. -/
theorem low_stock_derivation (db : EPIDatabase) (agora : String) (t : Nat) :
    ((gerarRelatorioEstoqueBaixo db agora t).1 =
      if lowStockItems db = [] then none
      else some
        { nomeArquivo := "relatorio-" ++ isoDatePart (toISOString t) ++ ".txt",
          conteudo :=
            reportHeader agora
              ++ String.join ((lowStockItems db).enum.map (fun p => reportEntry p.1 p.2))
              ++ reportTotal (lowStockItems db).length }) ∧
    (∀ e, e ∈ lowStockItems db ↔ e ∈ db.epis ∧ e.isLowStock) ∧
    (lowStockItems db).Sublist db.epis ∧
    (∀ e ∈ db.epis, ∀ a b : Int, e.quantity = .int a → e.minStock = .int b →
      (e ∈ lowStockItems db ↔ a ≤ b)) ∧
    (updateStats db).lowStock = (lowStockItems db).length ∧
    (updateStats db).totalAlim
      = (db.epis.map (fun e => e.quantity)).foldl JSNumber.add (.int 0) ∧
    (∀ qs : List Int, db.epis.map (fun e => e.quantity) = qs.map JSNumber.int →
      (qs.map Int.natAbs).sum < 2 ^ 53 →
      (updateStats db).totalAlim = .int qs.sum) ∧
    ((∃ e ∈ db.epis, e.quantity = .nan) → (updateStats db).totalAlim = .nan) := by
  refine ⟨gerarRelatorio_file db agora t, ?_, ?_, ?_, ?_, ?_, ?_, ?_⟩
  · intro e
    simp [lowStockItems, List.mem_filter]
  · exact List.filter_sublist _
  · intro e he a b hq hm
    simp [lowStockItems, List.mem_filter, he, EPI.isLowStock, hq, hm]
  · simp only [updateStats, EPIDatabase.getAllEPIs, filter_le_eq_lowStockItems]
  · simp only [updateStats, EPIDatabase.getAllEPIs, List.foldl_map]
  · intro qs h hsafe
    have := foldl_add_ints db.epis qs 0 h (by simpa using hsafe)
    simpa [updateStats, EPIDatabase.getAllEPIs] using this
  · intro h
    exact foldl_add_of_nan db.epis _ h

set_option maxRecDepth 100000 in
/-- C11, witness: scenario S5 with a third item above its minimum.  The item
at 0 of 5 and the item at 5 of 5 are listed, in that order, the item at 6 of 5
is not; the report ends in "Total: 2 Alimentos"; `updateStats` counts 2 low
items and a total of 11 units. -/
theorem low_stock_derivation_witness :
    (gerarRelatorioEstoqueBaixo lowStockDb "14/11/2023, 19:13:20" 1700000000000).1
      = some
        { nomeArquivo := "relatorio-2023-11-14.txt",
          conteudo :=
            "RELATÓRIO DE ESTOQUE BAIXO - 14/11/2023, 19:13:20\n"
              ++ "======================================================================\n\n"
              ++ "1. Feijão\n   Estoque: 0 (mínimo: 5)\n   Categoria: Grãos\n"
              ++ "   Localização: Despensa\n\n"
              ++ "2. Arroz\n   Estoque: 5 (mínimo: 5)\n   Categoria: Grãos\n"
              ++ "   Localização: Despensa\n\n"
              ++ "Total: 2 Alimentos\n" } ∧
    (lowStockItems lowStockDb).map (fun e => e.name) = ["Feijão", "Arroz"] ∧
    (updateStats lowStockDb).lowStock = 2 ∧
    (updateStats lowStockDb).totalAlim = .int 11 ∧
    (gerarRelatorioEstoqueBaixo arrozWorld.db "14/11/2023, 19:13:20" 1700000000000).1 = none :=
  ⟨(low_stock_derivation lowStockDb _ _).1.trans (by decide),
   by decide,
   (low_stock_derivation lowStockDb "" 0).2.2.2.2.1.trans (by decide),
   (low_stock_derivation lowStockDb "" 0).2.2.2.2.2.2.1 [0, 5, 6] (by decide) (by decide),
   (low_stock_derivation arrozWorld.db _ _).1.trans (by decide)⟩

end Luar
